import Mathlib

/-!
# Verification of the diego-ssh session channel handler

A shallow embedding of `handlers/session_channel_handler.go` from
cloudfoundry-incubator/diego-ssh, together with proofs of the testable
properties stated in the specification.

Modelling conventions:

* Byte strings (SSH wire strings, environment names and values, command
  strings) are `List Nat`, one element per byte.  All string constants of
  the Go source are spelled as explicit ASCII byte lists.
* The Go `map[string]string` held by a session is modelled as an
  association list with map semantics: an insert overwrites the binding
  of an existing key in place and appends a new key at the end.  Go map
  iteration order is unspecified; the model fixes insertion order, which
  no proved statement depends on beyond membership and the fixed prefix
  entries of the environment vector.
* Fallible collaborator calls (`runner.Start`, `runner.Wait`, the PTY
  allocation and the SCP copier) are resolved by an `Oracle` of external
  outcomes, since they are injected interfaces in the source.
* `ssh.Request.Reply` is a no-op when `WantReply` is false (per the
  golang.org/x/crypto/ssh contract), so reply events are emitted only
  when the request wanted a reply.
* `ssh.Unmarshal` is modelled by per-message decoders that read the
  declared fields in order (length-prefixed big-endian strings, big-endian
  uint32) and fail when the payload is too short.
* Observable actions (replies, requests sent on the channel, child
  process starts, SCP copier invocations, closes) are recorded as a trace
  of `Event`s.  An exit notification event carries a `delivered` flag,
  true when the channel was still open at the moment of the send
  (`SendRequest` on a closed channel returns an error and nothing reaches
  the peer).
-/

/-- ASCII bytes of "HOME". -/
def bHOME : List Nat := [72, 79, 77, 69]

/-- ASCII bytes of "USER". -/
def bUSER : List Nat := [85, 83, 69, 82]

/-- ASCII bytes of "TERM". -/
def bTERM : List Nat := [84, 69, 82, 77]

/-- ASCII bytes of "HOME=". -/
def bHOMEeq : List Nat := [72, 79, 77, 69, 61]

/-- ASCII bytes of "USER=". -/
def bUSEReq : List Nat := [85, 83, 69, 82, 61]

/-- ASCII bytes of "PATH=/bin:/usr/bin", the first entry of the child environment. -/
def pathEntry : List Nat :=
  [80, 65, 84, 72, 61, 47, 98, 105, 110, 58, 47, 117, 115, 114, 47, 98, 105, 110]

/-- ASCII bytes of "LANG=en_US.UTF8", the second entry of the child environment. -/
def langEntry : List Nat :=
  [76, 65, 78, 71, 61, 101, 110, 95, 85, 83, 46, 85, 84, 70, 56]

/-- ASCII bytes of "-c", the flag passed to the shell for an exec command. -/
def bDashC : List Nat := [45, 99]

/-- An environment map: association list from name bytes to value bytes,
with the map semantics of `envSet`. -/
abbrev EnvMap := List (List Nat × List Nat)

/-- Go map assignment `m[k] = v`: overwrite the binding of `k` in place if
present, otherwise add it. -/
def envSet (m : EnvMap) (k v : List Nat) : EnvMap :=
  if m.any (fun p => p.1 == k) then
    m.map (fun p => if p.1 == k then (k, v) else p)
  else
    m ++ [(k, v)]

/-- The pty request parameters, mirroring `ptyRequestMsg` of the source:
term string, columns, rows, width, height, modelist. -/
structure PtyReq where
  term : List Nat
  columns : Nat
  rows : Nat
  width : Nat
  height : Nat
  modelist : List Nat
deriving DecidableEq

/-- The zero `ptyRequestMsg`. -/
def PtyReq.zero : PtyReq := ⟨[], 0, 0, 0, 0, []⟩

/-- The dynamic value behind `exec.ExitError.Sys()`: either a decodable
`syscall.WaitStatus` (a 32-bit wait status word) or some other type, in
which case the type assertion in `sendExitMessage` fails. -/
inductive SysValue where
  | waitStatus (w : Nat)
  | notWaitStatus
deriving DecidableEq

/-- A Go error as classified by `sendExitMessage`: either an
`*exec.ExitError` (carrying its `Sys()` value) or any other non-nil
error. -/
inductive GoError where
  | exitError (sys : SysValue)
  | plain
deriving DecidableEq

/-- Linux `syscall.WaitStatus.Exited`: the low seven bits are zero. -/
def wExited (w : Nat) : Bool := w % 128 == 0

/-- Linux `syscall.WaitStatus.Signaled`: the low seven bits are neither
zero (exited) nor 0x7f (stopped). -/
def wSignaled (w : Nat) : Bool := w % 128 != 0 && w % 128 != 127

/-- Linux `syscall.WaitStatus.CoreDump`: signaled and the core flag 0x80
is set. -/
def wCoreDump (w : Nat) : Bool := wSignaled w && (w / 128) % 2 == 1

/-- `uint32(WaitStatus.ExitStatus())`: the exit code byte when the status
says exited, otherwise `uint32(-1)` since `ExitStatus` returns -1. -/
def waitStatusExitCode (w : Nat) : Nat :=
  if wExited w then (w / 256) % 256 else 4294967295

/-- Modelled from the spec: the `SSHSignals` table (OS signal number to
SSH wire name) lives in a source file that is not part of src/.  The spec
gives the translation table: ABRT, ALRM, FPE, HUP, ILL, INT, KILL, PIPE,
QUIT, SEGV, TERM, USR1, USR2 map to their POSIX namesakes.  A signal
absent from the Go map yields the zero value, the empty string. -/
def sshSignalName (n : Nat) : List Nat :=
  if n == 1 then [72, 85, 80]            -- HUP
  else if n == 2 then [73, 78, 84]       -- INT
  else if n == 3 then [81, 85, 73, 84]   -- QUIT
  else if n == 4 then [73, 76, 76]       -- ILL
  else if n == 6 then [65, 66, 82, 84]   -- ABRT
  else if n == 8 then [70, 80, 69]       -- FPE
  else if n == 9 then [75, 73, 76, 76]   -- KILL
  else if n == 10 then [85, 83, 82, 49]  -- USR1
  else if n == 11 then [83, 69, 71, 86]  -- SEGV
  else if n == 12 then [85, 83, 82, 50]  -- USR2
  else if n == 13 then [80, 73, 80, 69]  -- PIPE
  else if n == 14 then [65, 76, 82, 77]  -- ALRM
  else if n == 15 then [84, 69, 82, 77]  -- TERM
  else []

/-- Modelled from the spec: the `SyscallSignals` table (SSH wire name to
OS signal number), the inverse direction of `sshSignalName`; an unknown
SSH name maps to signal 0 (the zero value of a missing Go map key). -/
def syscallSignalNum (name : List Nat) : Nat :=
  if name == [72, 85, 80] then 1
  else if name == [73, 78, 84] then 2
  else if name == [81, 85, 73, 84] then 3
  else if name == [73, 76, 76] then 4
  else if name == [65, 66, 82, 84] then 6
  else if name == [70, 80, 69] then 8
  else if name == [75, 73, 76, 76] then 9
  else if name == [85, 83, 82, 49] then 10
  else if name == [83, 69, 71, 86] then 11
  else if name == [85, 83, 82, 50] then 12
  else if name == [80, 73, 80, 69] then 13
  else if name == [65, 76, 82, 77] then 14
  else if name == [84, 69, 82, 77] then 15
  else 0

/-- Outcomes of the external collaborators during one session, plus the
daemon's own process environment read by `os.Getenv` at launch time. -/
structure Oracle where
  osHome : List Nat
  osUser : List Nat
  /-- Result of the non-pty launch path: stdin pipe creation plus
  `runner.Start`.  Launch errors are never `*exec.ExitError`, so a
  failure is reported as a `GoError.plain`. -/
  startOk : Bool
  /-- Result of `runner.Wait` on the child: `none` when the child exited
  with status zero (`Wait` returned nil). -/
  waitErr : Option GoError
  /-- Whether the PTY master/slave allocation succeeds. -/
  ptyOk : Bool
  /-- Whether `scp.NewFromCommand` plus `copier.Copy()` returned no
  error. -/
  scpOk : Bool
deriving DecidableEq

/-- One observable action of the session. -/
inductive Event where
  /-- A reply to a channel request (only emitted when the request had
  `want_reply`). -/
  | reply (ok : Bool)
  /-- `createCommand` succeeded: records the request's `want_reply`
  flag, the argv, the snapshot of the session env map, and the
  constructed child environment vector. -/
  | commandCreated (wantReply : Bool) (argv : List (List Nat)) (envMap : EnvMap)
      (envv : List (List Nat))
  /-- `runner.Start` was invoked; `ok` is false when the launch failed. -/
  | startAttempt (ok : Bool)
  /-- The SCP copier collaborator was invoked with the command string. -/
  | scpCopy (cmd : List Nat)
  /-- An `exit-status` request was sent; `delivered` is false when the
  channel was already closed. -/
  | exitStatus (status : Nat) (delivered : Bool)
  /-- An `exit-signal` request was sent with signal name, core flag, the
  (empty) error message and language tag. -/
  | exitSignal (signame : List Nat) (core : Bool) (errMsg lang : List Nat) (delivered : Bool)
  /-- `runner.Signal` delivered an OS signal to the child. -/
  | signalChild (sig : Nat)
  /-- The window-size ioctl was issued on the pty master. -/
  | ioctlWinsize (cols rows : Nat)
  /-- The channel was closed. -/
  | chanClose
  /-- The pty master was closed. -/
  | ptyClose
deriving DecidableEq

/-- The mutable state of one `session`, as in the source struct: the
completion flag, the env map, whether `command` is non-nil, the pty
latch and parameters, whether `ptyMaster` is non-nil, and (model side)
whether the channel is still open and whether the exit waiter goroutine
is pending.  `shellPath` is resolved once at session creation. -/
structure SessState where
  complete : Bool
  env : EnvMap
  commandSet : Bool
  allocPty : Bool
  ptyRequest : PtyReq
  ptyMaster : Bool
  channelOpen : Bool
  waiterPending : Bool
  shellPath : List Nat
deriving DecidableEq

/-- `newSession`: fresh per-channel state; the env map starts from the
handler's default map and the shell path from the shell locator. -/
def newSession (defaultEnv : EnvMap) (shellPath : List Nat) : SessState :=
  { complete := false
    env := defaultEnv
    commandSet := false
    allocPty := false
    ptyRequest := PtyReq.zero
    ptyMaster := false
    channelOpen := true
    waiterPending := false
    shellPath := shellPath }

/-- A channel request: its wire type name, `want_reply` flag and raw
payload bytes. -/
structure Req where
  typ : String
  wantReply : Bool
  payload : List Nat

/-- Read a big-endian uint32 from the head of a byte list. -/
def parseU32 : List Nat → Option (Nat × List Nat)
  | a :: b :: c :: d :: rest => some (((a * 256 + b) * 256 + c) * 256 + d, rest)
  | _ => none

/-- Read an SSH wire string: a big-endian uint32 length followed by that
many bytes. -/
def parseSshString (l : List Nat) : Option (List Nat × List Nat) :=
  match parseU32 l with
  | none => none
  | some (n, rest) =>
    if n ≤ rest.length then some (rest.take n, rest.drop n) else none

/-- Decode an `env` request payload: name string, value string. -/
def decodeEnv (p : List Nat) : Option (List Nat × List Nat) :=
  match parseSshString p with
  | none => none
  | some (n, r) =>
    match parseSshString r with
    | none => none
    | some (v, _) => some (n, v)

/-- Decode a `signal` request payload: one string. -/
def decodeSignal (p : List Nat) : Option (List Nat) :=
  match parseSshString p with
  | none => none
  | some (s, _) => some s

/-- Decode an `exec` request payload: one command string. -/
def decodeExec (p : List Nat) : Option (List Nat) :=
  match parseSshString p with
  | none => none
  | some (s, _) => some s

/-- Decode a `pty-req` payload: term string, four uint32 values, and the
modelist string. -/
def decodePty (p : List Nat) : Option PtyReq :=
  match parseSshString p with
  | none => none
  | some (term, r1) =>
    match parseU32 r1 with
    | none => none
    | some (c, r2) =>
      match parseU32 r2 with
      | none => none
      | some (r, r3) =>
        match parseU32 r3 with
        | none => none
        | some (w, r4) =>
          match parseU32 r4 with
          | none => none
          | some (h, r5) =>
            match parseSshString r5 with
            | none => none
            | some (ml, _) => some ⟨term, c, r, w, h, ml⟩

/-- Decode a `window-change` payload: four uint32 values. -/
def decodeWinch (p : List Nat) : Option (Nat × Nat × Nat × Nat) :=
  match parseU32 p with
  | none => none
  | some (c, r1) =>
    match parseU32 r1 with
    | none => none
    | some (r, r2) =>
      match parseU32 r2 with
      | none => none
      | some (w, r3) =>
        match parseU32 r3 with
        | none => none
        | some (h, _) => some (c, r, w, h)

/-- Whether the per-type payload decode succeeds.  A `shell` request's
payload is never decoded by the source, so it never fails. -/
def decodeForType (t : String) (p : List Nat) : Bool :=
  if t == "env" then (decodeEnv p).isSome
  else if t == "signal" then (decodeSignal p).isSome
  else if t == "pty-req" then (decodePty p).isSome
  else if t == "window-change" then (decodeWinch p).isSome
  else if t == "exec" then (decodeExec p).isSome
  else true

/-- The Go regex `^\s*scp($|\s+)` on bytes.  Go's `\s` is
`[\t\n\f\r ]`. -/
def isSpaceByte (b : Nat) : Bool := b == 9 || b == 10 || b == 12 || b == 13 || b == 32

/-- Whether a byte list starts with "scp" followed by end of input or a
whitespace byte. -/
def scpHead : List Nat → Bool
  | 115 :: 99 :: 112 :: rest =>
    match rest with
    | [] => true
    | b :: _ => isSpaceByte b
  | _ => false

/-- `scpRegex.MatchString`: skip leading whitespace, then require "scp"
followed by end of string or whitespace. -/
def scpMatch (cmd : List Nat) : Bool := scpHead (cmd.dropWhile isSpaceByte)

/-- `session.environment()`: PATH and LANG first, then every env map
entry whose key is neither HOME nor USER, then HOME and USER from the
daemon's own process environment. -/
def environment (env : EnvMap) (home user : List Nat) : List (List Nat) :=
  pathEntry :: langEntry ::
    ((env.filter (fun p => !(p.1 == bHOME) && !(p.1 == bUSER))).map
        (fun p => p.1 ++ 61 :: p.2)
      ++ [bHOMEeq ++ home, bUSEReq ++ user])

/-- `session.createCommand`: fails with "command already started" when a
command handle is already present; otherwise builds the argv from the
shell path and the arguments, constructs the environment vector, and
sets the command handle. -/
def createCommand (st : SessState) (args : List (List Nat)) (orc : Oracle) :
    Except String (SessState × List (List Nat) × List (List Nat)) :=
  if st.commandSet then Except.error "command already started"
  else
    Except.ok ({st with commandSet := true},
      st.shellPath :: args,
      environment st.env orc.osHome orc.osUser)

/-- `session.destroy`: idempotent teardown.  When not yet complete, set
the flag, close the channel (always non-nil), and close and clear the
pty master when held.  The keepalive stop channel is nil in every path
reachable from src/, and `wg.Wait()` has no observable effect here. -/
def destroy (st : SessState) : SessState × List Event :=
  if st.complete then (st, [])
  else
    ({st with complete := true, channelOpen := false, ptyMaster := false},
      Event.chanClose :: (if st.ptyMaster then [Event.ptyClose] else []))

/-- `session.sendExitMessage` on the given wait error: nil error sends
exit-status 0; a non-`ExitError` or an `ExitError` whose `Sys()` is not
a `WaitStatus` sends exit-status 255; a signaled status sends
exit-signal with the SSH name and core flag; otherwise exit-status with
`uint32(ExitStatus())`. -/
def sendExitMessage (err : Option GoError) (chOpen : Bool) : List Event :=
  match err with
  | none => [Event.exitStatus 0 chOpen]
  | some GoError.plain => [Event.exitStatus 255 chOpen]
  | some (GoError.exitError SysValue.notWaitStatus) => [Event.exitStatus 255 chOpen]
  | some (GoError.exitError (SysValue.waitStatus w)) =>
    if wSignaled w then
      [Event.exitSignal (sshSignalName (w % 128)) (wCoreDump w) [] [] chOpen]
    else
      [Event.exitStatus (waitStatusExitCode w) chOpen]

/-- `session.executeShell`: create the command (negative reply on
failure), positive reply when wanted, then launch with or without a
PTY.  A launch error is turned into an exit message followed by
teardown; on success the exit waiter becomes pending.  The PTY launch
(`runWithPty`) is not part of src/ and is modelled from the spec: it
opens the master/slave pair (recording the master on the session) and
starts the child; a PTY allocation failure propagates as a launch
error. -/
def executeShell (st : SessState) (wr : Bool) (args : List (List Nat)) (orc : Oracle) :
    SessState × List Event :=
  match createCommand st args orc with
  | Except.error _ => (st, if wr then [Event.reply false] else [])
  | Except.ok (st1, argv, envv) =>
    let e0 := Event.commandCreated wr argv st.env envv
    let e1 : List Event := if wr then [Event.reply true] else []
    if st1.allocPty then
      if orc.ptyOk then
        let st2 := {st1 with ptyMaster := true}
        if orc.startOk then
          ({st2 with waiterPending := true}, e0 :: e1 ++ [Event.startAttempt true])
        else
          (((destroy st2).1),
            e0 :: e1 ++ Event.startAttempt false ::
              (sendExitMessage (some GoError.plain) st2.channelOpen ++ (destroy st2).2))
      else
        (((destroy st1).1),
          e0 :: e1 ++ (sendExitMessage (some GoError.plain) st1.channelOpen ++ (destroy st1).2))
    else
      if orc.startOk then
        ({st1 with waiterPending := true}, e0 :: e1 ++ [Event.startAttempt true])
      else
        (((destroy st1).1),
          e0 :: e1 ++ Event.startAttempt false ::
            (sendExitMessage (some GoError.plain) st1.channelOpen ++ (destroy st1).2))

/-- `session.executeSCP`: positive reply when wanted, invoke the copier
collaborator, send exit-status 0 on success and 1 on any error, then
teardown. -/
def executeSCP (st : SessState) (wr : Bool) (cmd : List Nat) (orc : Oracle) :
    SessState × List Event :=
  ((destroy st).1,
    (if wr then [Event.reply true] else []) ++
      Event.scpCopy cmd ::
        Event.exitStatus (if orc.scpOk then 0 else 1) st.channelOpen :: (destroy st).2)

/-- `session.handleEnvironmentRequest`: decode name and value; on
failure reply negatively (a no-op unless want_reply); on success write
the binding into the env map and reply positively when wanted. -/
def handleEnvironmentRequest (st : SessState) (wr : Bool) (p : List Nat) :
    SessState × List Event :=
  match decodeEnv p with
  | none => (st, if wr then [Event.reply false] else [])
  | some (n, v) =>
    ({st with env := envSet st.env n v}, if wr then [Event.reply true] else [])

/-- `session.handleSignalRequest`: decode the signal name; deliver the
translated OS signal to the child when one exists; positive reply when
wanted. -/
def handleSignalRequest (st : SessState) (wr : Bool) (p : List Nat) :
    SessState × List Event :=
  match decodeSignal p with
  | none => (st, if wr then [Event.reply false] else [])
  | some name =>
    (st,
      (if st.commandSet then [Event.signalChild (syscallSignalNum name)] else []) ++
        (if wr then [Event.reply true] else []))

/-- `session.handlePtyRequest`: decode the pty parameters; latch the pty
flag, store the parameters, write TERM into the env map; positive reply
when wanted. -/
def handlePtyRequest (st : SessState) (wr : Bool) (p : List Nat) :
    SessState × List Event :=
  match decodePty p with
  | none => (st, if wr then [Event.reply false] else [])
  | some msg =>
    ({st with allocPty := true, ptyRequest := msg, env := envSet st.env bTERM msg.term},
      if wr then [Event.reply true] else [])

/-- The state after a window-change: the stored columns and rows are
updated only when a pty was requested. -/
def wcState (st : SessState) (c r : Nat) : SessState :=
  if st.allocPty then
    {st with ptyRequest := {st.ptyRequest with columns := c, rows := r}}
  else st

/-- `session.handleWindowChangeRequest`: decode the four sizes; update
the stored columns and rows when a pty was requested; issue the ioctl
when a live pty master exists; positive reply when wanted even if the
ioctl failed. -/
def handleWindowChangeRequest (st : SessState) (wr : Bool) (p : List Nat) :
    SessState × List Event :=
  match decodeWinch p with
  | none => (st, if wr then [Event.reply false] else [])
  | some (c, r, _, _) =>
    (wcState st c r,
      (if (wcState st c r).ptyMaster then
          [Event.ioctlWinsize (wcState st c r).ptyRequest.columns
            (wcState st c r).ptyRequest.rows]
        else []) ++
        (if wr then [Event.reply true] else []))

/-- `session.handleExecRequest`: decode the command string; an scp
command goes to the SCP copier, anything else commits to a shell launch
with argv `[shell, "-c", cmd]`. -/
def handleExecRequest (st : SessState) (wr : Bool) (p : List Nat) (orc : Oracle) :
    SessState × List Event :=
  match decodeExec p with
  | none => (st, if wr then [Event.reply false] else [])
  | some cmd =>
    if scpMatch cmd then executeSCP st wr cmd orc
    else executeShell st wr [bDashC, cmd] orc

/-- Modelled from the spec: `serviceRequests` is not part of src/.  The
dispatcher consumes requests serially and routes them by type string to
the handlers of src/; an unknown type gets a negative reply when one was
wanted (spec section 4.1). -/
def step (st : SessState) (r : Req) (orc : Oracle) : SessState × List Event :=
  if r.typ == "env" then handleEnvironmentRequest st r.wantReply r.payload
  else if r.typ == "signal" then handleSignalRequest st r.wantReply r.payload
  else if r.typ == "pty-req" then handlePtyRequest st r.wantReply r.payload
  else if r.typ == "window-change" then handleWindowChangeRequest st r.wantReply r.payload
  else if r.typ == "exec" then handleExecRequest st r.wantReply r.payload orc
  else if r.typ == "shell" then executeShell st r.wantReply [] orc
  else (st, if r.wantReply then [Event.reply false] else [])

/-- The exit waiter goroutine firing: `runner.Wait` returns, the exit
message is sent (delivered only while the channel is open), then
teardown. -/
def fireWaiter (st : SessState) (orc : Oracle) : SessState × List Event :=
  ((destroy {st with waiterPending := false}).1,
    sendExitMessage orc.waitErr st.channelOpen ++ (destroy {st with waiterPending := false}).2)

/-- Modelled from the spec: the serial dispatch loop of
`serviceRequests`.  Teardown is the convergence point: once complete the
channel is closed and the request stream ends, so remaining requests are
never acted on (spec sections 3 and 4.1).  The pending exit waiter runs
concurrently with the dispatcher; the parameter `fire` selects the
dispatch boundary at which it fires, covering every interleaving at
request granularity. -/
def dispatchLoop : SessState → List Req → Oracle → Nat → SessState × List Event
  | st, [], _, _ => (st, [])
  | st, r :: rs, orc, fire =>
    if st.complete then (st, [])
    else if fire == 0 && st.waiterPending then
      -- the waiter fires before this request; its teardown ends the
      -- stream, so the remaining requests are never dispatched
      fireWaiter st orc
    else
      ((dispatchLoop (step st r orc).1 rs orc (fire - 1)).1,
        (step st r orc).2 ++ (dispatchLoop (step st r orc).1 rs orc (fire - 1)).2)

/-- The exit waiter still pending when the request stream ends fires at
that point. -/
def endWaiter (st : SessState) (orc : Oracle) : SessState × List Event :=
  if st.waiterPending then fireWaiter st orc else (st, [])

/-- A whole session run: dispatch the request stream, let a still
pending exit waiter fire, and converge on teardown. -/
def runSession (st : SessState) (reqs : List Req) (orc : Oracle) (fire : Nat) :
    SessState × List Event :=
  ((destroy (endWaiter (dispatchLoop st reqs orc fire).1 orc).1).1,
    (dispatchLoop st reqs orc fire).2
      ++ (endWaiter (dispatchLoop st reqs orc fire).1 orc).2
      ++ (destroy (endWaiter (dispatchLoop st reqs orc fire).1 orc).1).2)

/-- Event classifiers. -/
def isCC : Event → Bool
  | Event.commandCreated _ _ _ _ => true
  | _ => false

/-- Whether the event is a `runner.Start` invocation. -/
def isStart : Event → Bool
  | Event.startAttempt _ => true
  | _ => false

/-- Whether the event is an SCP copier invocation. -/
def isScp : Event → Bool
  | Event.scpCopy _ => true
  | _ => false

/-- Whether the event is an exit notification send (delivered or not). -/
def isExitEv : Event → Bool
  | Event.exitStatus _ _ => true
  | Event.exitSignal _ _ _ _ _ => true
  | _ => false

/-- Whether the event is an exit notification that reached the peer. -/
def deliveredExit : Event → Bool
  | Event.exitStatus _ d => d
  | Event.exitSignal _ _ _ _ d => d
  | _ => false

/-- A launch attempt: a created shell command or an SCP invocation. -/
def isAttempt (e : Event) : Bool := isCC e || isScp e

/-- Number of events of a trace satisfying the predicate. -/
def countP (p : Event → Bool) (tr : List Event) : Nat := (tr.filter p).length

/-- Whether a launch was ever attempted in the trace. -/
def attempted (tr : List Event) : Bool := tr.any isAttempt

/-- The exit-ordering property: every exit notification in the trace is
preceded by a launch attempt. -/
def OrdProp (tr : List Event) : Prop :=
  ∀ pre e post, tr = pre ++ e :: post → isExitEv e = true →
    ∃ a, a ∈ pre ∧ isAttempt a = true

/-- The commit-ordering property: a created command is preceded by no
exit and no start event, the positive reply (when wanted) directly
follows it, and its environment vector is the one constructed from its
env map snapshot and the daemon environment. -/
def C7Prop (orc : Oracle) (tr : List Event) : Prop :=
  ∀ pre wr argv m envv post,
    tr = pre ++ Event.commandCreated wr argv m envv :: post →
    ((∀ x ∈ pre, isExitEv x = false ∧ isStart x = false)
      ∧ (wr = true → post.head? = some (Event.reply true))
      ∧ envv = environment m orc.osHome orc.osUser)

/-- Facts maintained along a session run, relating the state to the
trace so far.  The phase disjunction distinguishes: nothing launched
yet, a child running with the waiter pending, and torn down with the
single exit notification delivered. -/
structure SessInv (orc : Oracle) (st : SessState) (tr : List Event) : Prop where
  hch : st.channelOpen = !st.complete
  hcc : countP isCC tr = (if st.commandSet then 1 else 0)
  hsc : countP isStart tr ≤ countP isCC tr
  hph : (attempted tr = false ∧ st.complete = false ∧ st.waiterPending = false
          ∧ countP isExitEv tr = 0 ∧ countP isStart tr = 0)
      ∨ (st.complete = false ∧ st.waiterPending = true ∧ st.commandSet = true
          ∧ countP isExitEv tr = 0 ∧ attempted tr = true)
      ∨ (st.complete = true ∧ countP deliveredExit tr = 1 ∧ attempted tr = true)
  hord : OrdProp tr
  hc7 : C7Prop orc tr

/-- Events emitted by the state-mutating control handlers: no command
creation, no exit, no start, no copier invocation. -/
def quietEv (e : Event) : Bool := !(isCC e || isExitEv e || isStart e || isScp e)

/-- The properties of a completed run trace that the specification
claims: one exit notification delivered exactly when a launch was
attempted, exits only after attempts, at most one created command and
one start, and the commit-ordering facts. -/
def goodTrace (orc : Oracle) (tr : List Event) : Prop :=
  countP deliveredExit tr = (if attempted tr then 1 else 0)
  ∧ OrdProp tr
  ∧ C7Prop orc tr
  ∧ countP isCC tr ≤ 1
  ∧ countP isStart tr ≤ countP isCC tr

/-! ## Repeated teardown -/

/-- Whether the event is the channel close. -/
def isChanCloseEv : Event → Bool
  | Event.chanClose => true
  | _ => false

/-- Whether the event is the pty master close. -/
def isPtyCloseEv : Event → Bool
  | Event.ptyClose => true
  | _ => false

/-- Invoking `destroy` n times in a row, collecting all events. -/
def destroyN : Nat → SessState → SessState × List Event
  | 0, st => (st, [])
  | n + 1, st =>
    ((destroyN n (destroy st).1).1, (destroy st).2 ++ (destroyN n (destroy st).1).2)

/-! ## The shared default environment map -/

/-- Go maps are reference values: the handler's `defaultEnv` field is a
reference into the heap of map values. -/
structure GoHandler where
  defaultEnv : Nat

/-- The per-channel session as far as its env map reference is
concerned. -/
structure GoSessionRef where
  envRef : Nat

/-- A heap of Go map values, indexed by reference. -/
abbrev EnvHeap := Nat → EnvMap

/-- `newSession` installs `handler.defaultEnv` itself — the reference,
not a copy of the map value — as the session's env map. -/
def goNewSession (h : GoHandler) : GoSessionRef := ⟨h.defaultEnv⟩

/-- `handleEnvironmentRequest`'s mutation `sess.env[name] = value` seen
at the heap level: the map value behind the session's reference is
updated in place. -/
def goHandleEnvRequest (heap : EnvHeap) (s : GoSessionRef) (k v : List Nat) : EnvHeap :=
  fun r => if r == s.envRef then envSet (heap s.envRef) k v else heap r

/-- A concrete oracle for witnesses: daemon HOME is "h", USER is "u",
every collaborator call succeeds. -/
def oracleA : Oracle := ⟨[104], [117], true, none, true, true⟩

/-! ## Trace bookkeeping lemmas -/

theorem countP_append (p : Event → Bool) (l1 l2 : List Event) :
    countP p (l1 ++ l2) = countP p l1 + countP p l2 := by
  simp [countP, List.filter_append]

theorem countP_eq_zero {p : Event → Bool} {l : List Event} :
    countP p l = 0 ↔ ∀ e ∈ l, p e = false := by
  simp [countP, List.length_eq_zero, List.filter_eq_nil_iff]

theorem deliveredExit_imp_isExitEv {e : Event} (h : deliveredExit e = true) :
    isExitEv e = true := by
  cases e <;> simp_all [deliveredExit, isExitEv]

theorem countP_deliveredExit_le {l : List Event} (h : countP isExitEv l = 0) :
    countP deliveredExit l = 0 := by
  rw [countP_eq_zero] at h ⊢
  intro e he
  by_contra hb
  have := deliveredExit_imp_isExitEv (by simpa using hb)
  simp [h e he] at this

theorem attempted_append (l1 l2 : List Event) :
    attempted (l1 ++ l2) = (attempted l1 || attempted l2) := by
  simp [attempted, List.any_append]

theorem isCC_attempt {e : Event} (h : isCC e = true) : isAttempt e = true := by
  simp [isAttempt, h]

theorem isScp_attempt {e : Event} (h : isScp e = true) : isAttempt e = true := by
  simp [isAttempt, h]

theorem notMem_of_countP_zero {p : Event → Bool} {l : List Event} {e : Event}
    (h : countP p l = 0) (he : e ∈ l) : p e = false :=
  countP_eq_zero.mp h e he

/-- Splitting a decomposition of an appended trace: the distinguished
element lies either in the old trace or in the appended block. -/
theorem append_split {tr B pre post : List Event} {e : Event}
    (h : tr ++ B = pre ++ e :: post) :
    (∃ mid, tr = pre ++ e :: mid ∧ post = mid ++ B)
    ∨ (∃ pre2, pre = tr ++ pre2 ∧ B = pre2 ++ e :: post) := by
  rcases List.append_eq_append_iff.mp h with ⟨a, ha1, ha2⟩ | ⟨c, hc1, hc2⟩
  · exact Or.inr ⟨a, ha1, ha2⟩
  · cases c with
    | nil =>
      refine Or.inr ⟨[], by simpa using hc1.symm, by simpa using hc2.symm⟩
    | cons x mid =>
      have hx : e = x ∧ post = mid ++ B := by
        have : e :: post = x :: (mid ++ B) := hc2
        exact ⟨(List.cons.injEq _ _ _ _ ▸ this).1, (List.cons.injEq _ _ _ _ ▸ this).2⟩
      exact Or.inl ⟨mid, by rw [hc1, hx.1], hx.2⟩

theorem head?_append_some {l l' : List Event} {x : Event} (h : l.head? = some x) :
    (l ++ l').head? = some x := by
  cases l <;> simp_all

theorem ord_nil : OrdProp [] := by
  intro pre e post h
  exact absurd h (by simp)

theorem c7_nil (orc : Oracle) : C7Prop orc [] := by
  intro pre wr argv m envv post h
  exact absurd h (by simp)

theorem ord_of_no_exit {tr : List Event} (h : countP isExitEv tr = 0) : OrdProp tr := by
  intro pre e post htr he
  have : e ∈ tr := by rw [htr]; exact List.mem_append_right _ (List.mem_cons_self _ _)
  have := notMem_of_countP_zero h this
  simp [he] at this

/-- Appending a block: ordering is preserved when every exit inside the
block can point at an attempt among the old trace plus its own block
prefix. -/
theorem ord_append {tr B : List Event} (htr : OrdProp tr)
    (hB : ∀ pre2 e post2, B = pre2 ++ e :: post2 → isExitEv e = true →
      ∃ a, a ∈ tr ++ pre2 ∧ isAttempt a = true) :
    OrdProp (tr ++ B) := by
  intro pre e post h he
  rcases append_split h with ⟨mid, h1, _⟩ | ⟨pre2, h1, h2⟩
  · exact htr pre e mid h1 he
  · obtain ⟨a, ha, hatt⟩ := hB pre2 e post h2 he
    exact ⟨a, by rw [h1]; exact ha, hatt⟩

/-- Appending an exit-free block preserves the ordering property. -/
theorem ord_append_noexit {tr B : List Event} (htr : OrdProp tr)
    (hB : ∀ x ∈ B, isExitEv x = false) : OrdProp (tr ++ B) := by
  refine ord_append htr ?_
  intro pre2 e post2 hB2 he
  have : e ∈ B := by rw [hB2]; exact List.mem_append_right _ (List.mem_cons_self _ _)
  simp [hB _ this] at he

/-- A block headed by a unique attempt event: every exit inside it sees
that attempt in its prefix. -/
theorem ord_block_mid_attempt {q : List Event} (hq : ∀ x ∈ q, isExitEv x = false)
    {c : Event} (hc : isAttempt c = true) (hcne : isExitEv c = false) (rest : List Event) :
    ∀ pre2 e post2, q ++ c :: rest = pre2 ++ e :: post2 → isExitEv e = true →
      ∃ a, a ∈ pre2 ∧ isAttempt a = true := by
  intro pre2 e post2 hB he
  rcases append_split hB with ⟨mid, h1, _⟩ | ⟨pre3, h1, h2⟩
  · exfalso
    have : e ∈ q := by rw [h1]; exact List.mem_append_right _ (List.mem_cons_self _ _)
    simp [hq _ this] at he
  · cases pre3 with
    | nil =>
      exfalso
      have : c = e := by simpa using congrArg List.head? h2
      rw [← this] at he
      simp [hcne] at he
    | cons y pre3' =>
      have hy : c = y := by simpa using congrArg List.head? h2
      refine ⟨c, ?_, hc⟩
      rw [h1, hy]
      exact List.mem_append_right _ (List.mem_cons_self _ _)

theorem c7_append_nocc {orc : Oracle} {tr B : List Event} (htr : C7Prop orc tr)
    (hB : ∀ x ∈ B, isCC x = false) : C7Prop orc (tr ++ B) := by
  intro pre wr argv m envv post h
  rcases append_split h with ⟨mid, h1, h2⟩ | ⟨pre2, _, h2⟩
  · obtain ⟨hpre, hhead, henv⟩ := htr pre wr argv m envv mid h1
    refine ⟨hpre, ?_, henv⟩
    intro hwr
    rw [h2]
    exact head?_append_some (hhead hwr)
  · exfalso
    have : Event.commandCreated wr argv m envv ∈ B := by
      rw [h2]; exact List.mem_append_right _ (List.mem_cons_self _ _)
    simpa [isCC] using hB _ this

/-- A decomposition of a block headed by the only command-created event
must split at the head. -/
theorem cc_split_head {e1 : Event} {rest pre2 post2 : List Event} {wr : Bool}
    {argv : List (List Nat)} {m : EnvMap} {envv : List (List Nat)}
    (hB : e1 :: rest = pre2 ++ Event.commandCreated wr argv m envv :: post2)
    (hrest : ∀ x ∈ rest, isCC x = false) :
    pre2 = [] ∧ e1 = Event.commandCreated wr argv m envv ∧ rest = post2 := by
  cases pre2 with
  | nil =>
    have h1 : e1 = Event.commandCreated wr argv m envv := by
      simpa using congrArg List.head? hB
    have h2 : rest = post2 := by simpa using congrArg List.tail hB
    exact ⟨rfl, h1, h2⟩
  | cons y pre2' =>
    exfalso
    have h2 : rest = pre2' ++ Event.commandCreated wr argv m envv :: post2 := by
      simpa using congrArg List.tail hB
    have : Event.commandCreated wr argv m envv ∈ rest := by
      rw [h2]; exact List.mem_append_right _ (List.mem_cons_self _ _)
    simpa [isCC] using hrest _ this

theorem c7_append_cc {orc : Oracle} {tr : List Event} {wr : Bool}
    {argv : List (List Nat)} {m : EnvMap} {envv : List (List Nat)} {rest : List Event}
    (hnocc : countP isCC tr = 0)
    (hclean : ∀ x ∈ tr, isExitEv x = false ∧ isStart x = false)
    (hrest : ∀ x ∈ rest, isCC x = false)
    (hhead : wr = true → rest.head? = some (Event.reply true))
    (henv : envv = environment m orc.osHome orc.osUser) :
    C7Prop orc (tr ++ Event.commandCreated wr argv m envv :: rest) := by
  intro pre wr' argv' m' envv' post h
  rcases append_split h with ⟨mid, h1, _⟩ | ⟨pre2, h1, h2⟩
  · exfalso
    have : Event.commandCreated wr' argv' m' envv' ∈ tr := by
      rw [h1]; exact List.mem_append_right _ (List.mem_cons_self _ _)
    simpa [isCC] using notMem_of_countP_zero hnocc this
  · obtain ⟨hp2, he, hr⟩ := cc_split_head h2 hrest
    have hwr : wr = wr' ∧ argv = argv' ∧ m = m' ∧ envv = envv' := by
      have := he.symm
      simp [Event.commandCreated.injEq] at this
      exact ⟨this.1.symm, this.2.1.symm, this.2.2.1.symm, this.2.2.2.symm⟩
    subst hp2
    refine ⟨?_, ?_, ?_⟩
    · intro x hx
      rw [h1] at hx
      exact hclean x (by simpa using hx)
    · intro hwr'
      rw [← hr]
      exact hhead (by rw [hwr.1]; exact hwr')
    · rw [← hwr.2.2.2, henv, hwr.2.2.1]

/-! ## The session run invariant -/

theorem quiet_parts {e : Event} (h : quietEv e = true) :
    isCC e = false ∧ isExitEv e = false ∧ isStart e = false ∧ isScp e = false := by
  simp [quietEv] at h
  refine ⟨?_, ?_, ?_, ?_⟩ <;> tauto

theorem quiet_counts {B : List Event} (hq : ∀ e ∈ B, quietEv e = true) :
    countP isCC B = 0 ∧ countP isExitEv B = 0 ∧ countP isStart B = 0
      ∧ countP deliveredExit B = 0 ∧ attempted B = false := by
  have h1 : ∀ e ∈ B, isCC e = false ∧ isExitEv e = false ∧ isStart e = false
      ∧ isScp e = false := fun e he => quiet_parts (hq e he)
  refine ⟨countP_eq_zero.mpr fun e he => (h1 e he).1,
    countP_eq_zero.mpr fun e he => (h1 e he).2.1,
    countP_eq_zero.mpr fun e he => (h1 e he).2.2.1,
    countP_deliveredExit_le (countP_eq_zero.mpr fun e he => (h1 e he).2.1), ?_⟩
  show B.any isAttempt = false
  rw [List.any_eq_false]
  intro x hx
  simp [isAttempt, (h1 x hx).1, (h1 x hx).2.2.2]

/-- Appending a quiet block while leaving the phase-relevant state
fields unchanged preserves the invariant. -/
theorem inv_quiet {orc : Oracle} {st : SessState} {tr : List Event} (inv : SessInv orc st tr)
    {st' : SessState} {B : List Event} (hq : ∀ e ∈ B, quietEv e = true)
    (h1 : st'.complete = st.complete) (h2 : st'.commandSet = st.commandSet)
    (h3 : st'.waiterPending = st.waiterPending) (h4 : st'.channelOpen = st.channelOpen) :
    SessInv orc st' (tr ++ B) := by
  obtain ⟨q1, q2, q3, q4, q5⟩ := quiet_counts hq
  refine ⟨by rw [h4, h1]; exact inv.hch, ?_, ?_, ?_, ?_, ?_⟩
  · rw [countP_append, q1, h2]
    simpa using inv.hcc
  · rw [countP_append, countP_append, q1, q3]
    simpa using inv.hsc
  · rcases inv.hph with ⟨p1, p2, p3, p4, p5⟩ | ⟨p1, p2, p3, p4, p5⟩ | ⟨p1, p2, p3⟩
    · exact Or.inl ⟨by rw [attempted_append, q5, p1]; rfl, by rw [h1]; exact p2,
        by rw [h3]; exact p3, by rw [countP_append, q2, p4],
        by rw [countP_append, q3, p5]⟩
    · exact Or.inr (Or.inl ⟨by rw [h1]; exact p1, by rw [h3]; exact p2,
        by rw [h2]; exact p3, by rw [countP_append, q2, p4],
        by rw [attempted_append, p5]; rfl⟩)
    · exact Or.inr (Or.inr ⟨by rw [h1]; exact p1, by rw [countP_append, q4, p2],
        by rw [attempted_append, p3]; rfl⟩)
  · exact ord_append_noexit inv.hord fun x hx => (quiet_parts (hq x hx)).2.1
  · exact c7_append_nocc inv.hc7 fun x hx => (quiet_parts (hq x hx)).1

theorem countP_cons (p : Event → Bool) (e : Event) (l : List Event) :
    countP p (e :: l) = (if p e then 1 else 0) + countP p l := by
  by_cases h : p e
  · simp [countP, List.filter_cons, h]
    omega
  · simp [countP, List.filter_cons, h]

theorem isExitEv_parts {e : Event} (h : isExitEv e = true) :
    isCC e = false ∧ isStart e = false ∧ isScp e = false := by
  cases e <;> simp_all [isExitEv, isCC, isStart, isScp]

/-- `sendExitMessage` always emits exactly one exit notification, whose
delivery flag is the channel-open flag at the send. -/
theorem sendExitMessage_shape (err : Option GoError) (c : Bool) :
    ∃ e, sendExitMessage err c = [e] ∧ isExitEv e = true ∧ deliveredExit e = c := by
  match err with
  | none => exact ⟨_, rfl, rfl, rfl⟩
  | some GoError.plain => exact ⟨_, rfl, rfl, rfl⟩
  | some (GoError.exitError SysValue.notWaitStatus) => exact ⟨_, rfl, rfl, rfl⟩
  | some (GoError.exitError (SysValue.waitStatus w)) =>
    by_cases h : wSignaled w
    · refine ⟨Event.exitSignal (sshSignalName (w % 128)) (wCoreDump w) [] [] c, ?_, rfl, rfl⟩
      simp [sendExitMessage, h]
    · refine ⟨Event.exitStatus (waitStatusExitCode w) c, ?_, rfl, rfl⟩
      simp [sendExitMessage, h]

theorem destroy_closes_quiet (st : SessState) : ∀ x ∈ (destroy st).2, quietEv x = true := by
  intro x hx
  by_cases hc : st.complete
  · simp [destroy, hc] at hx
  · simp [destroy, hc] at hx
    by_cases hp : st.ptyMaster
    · simp [hp] at hx
      rcases hx with rfl | rfl <;> rfl
    · simp [hp] at hx
      rw [hx]
      rfl

theorem destroy_not_complete {st : SessState} (hc : st.complete = false) :
    destroy st = ({st with complete := true, channelOpen := false, ptyMaster := false},
      Event.chanClose :: (if st.ptyMaster then [Event.ptyClose] else [])) := by
  simp [destroy, hc]

/-- Extract the phase-one facts available before any launch commit. -/
theorem phase1_facts {orc : Oracle} {st : SessState} {tr : List Event}
    (inv : SessInv orc st tr) (hco : st.complete = false) (hcs : st.commandSet = false) :
    attempted tr = false ∧ countP isExitEv tr = 0 ∧ countP isStart tr = 0
      ∧ st.waiterPending = false ∧ countP isCC tr = 0 ∧ st.channelOpen = true := by
  have hccz : countP isCC tr = 0 := by rw [inv.hcc, hcs]; rfl
  have hopen : st.channelOpen = true := by rw [inv.hch, hco]; rfl
  rcases inv.hph with ⟨p1, _, p3, p4, p5⟩ | ⟨_, _, p3, _, _⟩ | ⟨p1, _, _⟩
  · exact ⟨p1, p4, p5, p3, hccz, hopen⟩
  · rw [hcs] at p3
    exact absurd p3 (by simp)
  · rw [hco] at p1
    exact absurd p1 (by simp)

theorem clean_of_phase1 {tr : List Event} (hex : countP isExitEv tr = 0)
    (hst : countP isStart tr = 0) : ∀ x ∈ tr, isExitEv x = false ∧ isStart x = false :=
  fun _ hx => ⟨notMem_of_countP_zero hex hx, notMem_of_countP_zero hst hx⟩

/-- Appending a successful commit block moves the run from phase one to
phase two. -/
theorem inv_commit_success {orc : Oracle} {st : SessState} {tr : List Event}
    (inv : SessInv orc st tr) (hco : st.complete = false) (hcs : st.commandSet = false)
    {st' : SessState} {wr : Bool} {argv : List (List Nat)}
    (h1 : st'.complete = false) (h2 : st'.commandSet = true) (h3 : st'.waiterPending = true)
    (h4 : st'.channelOpen = st.channelOpen) :
    SessInv orc st'
      (tr ++ Event.commandCreated wr argv st.env (environment st.env orc.osHome orc.osUser)
        :: ((if wr then [Event.reply true] else []) ++ [Event.startAttempt true])) := by
  obtain ⟨f1, f2, f3, _, f5, f6⟩ := phase1_facts inv hco hcs
  set rest : List Event := (if wr then [Event.reply true] else []) ++ [Event.startAttempt true]
    with hrest
  set cc : Event :=
    Event.commandCreated wr argv st.env (environment st.env orc.osHome orc.osUser) with hccdef
  have hrestCounts : countP isCC rest = 0 ∧ countP isExitEv rest = 0
      ∧ countP isStart rest = 1 ∧ countP isScp rest = 0 := by
    cases wr <;> simp [hrest, countP, List.filter, isCC, isExitEv, isStart, isScp]
  refine ⟨by rw [h4, inv.hch, hco, h1], ?_, ?_, ?_, ?_, ?_⟩
  · rw [countP_append, countP_cons, f5, hrestCounts.1, h2]
    rfl
  · rw [countP_append, countP_cons, f3, hrestCounts.2.2.1,
      countP_append, countP_cons, f5, hrestCounts.1]
    simp [isStart, isCC, hccdef]
  · refine Or.inr (Or.inl ⟨h1, h3, h2, ?_, ?_⟩)
    · rw [countP_append, countP_cons, f2, hrestCounts.2.1]
      simp [isExitEv, hccdef]
    · rw [attempted_append, f1]
      simp [attempted, isAttempt, isCC, hccdef]
  · refine ord_append_noexit inv.hord ?_
    intro x hx
    rcases List.mem_cons.mp hx with rfl | hx2
    · rfl
    · exact notMem_of_countP_zero hrestCounts.2.1 hx2
  · refine c7_append_cc f5 (clean_of_phase1 f2 f3) ?_ ?_ rfl
    · intro x hx
      exact notMem_of_countP_zero hrestCounts.1 hx
    · intro hwr
      rw [hrest, hwr]
      rfl

/-- Appending a failed-launch commit block (exit notification plus
teardown) moves the run from phase one straight to phase three. -/
theorem inv_commit_fail {orc : Oracle} {st : SessState} {tr : List Event}
    (inv : SessInv orc st tr) (hco : st.complete = false) (hcs : st.commandSet = false)
    {st' : SessState} {wr : Bool} {argv : List (List Nat)} {mid : List Event}
    (hmid : ∀ x ∈ mid, isCC x = false ∧ isExitEv x = false ∧ isScp x = false)
    (hmidstart : countP isStart mid ≤ 1)
    {exitE : Event} {closes : List Event}
    (hexit : isExitEv exitE = true) (hdel : deliveredExit exitE = true)
    (hcloses : ∀ x ∈ closes, quietEv x = true)
    (h1 : st'.complete = true) (h2 : st'.commandSet = true) (h4 : st'.channelOpen = false) :
    SessInv orc st'
      (tr ++ Event.commandCreated wr argv st.env (environment st.env orc.osHome orc.osUser)
        :: ((if wr then [Event.reply true] else []) ++ mid ++ exitE :: closes)) := by
  obtain ⟨f1, f2, f3, _, f5, _⟩ := phase1_facts inv hco hcs
  obtain ⟨qc1, qc2, qc3, qc4, _⟩ := quiet_counts hcloses
  set rest : List Event := (if wr then [Event.reply true] else []) ++ mid ++ exitE :: closes
    with hrest
  set cc : Event :=
    Event.commandCreated wr argv st.env (environment st.env orc.osHome orc.osUser) with hccdef
  have hreplyCounts : ∀ p : Event → Bool, p (Event.reply true) = false →
      countP p (if wr then [Event.reply true] else []) = 0 := by
    intro p hp
    cases wr <;> simp [countP, List.filter, hp]
  have hmidcc : countP isCC mid = 0 := countP_eq_zero.mpr fun x hx => (hmid x hx).1
  have hmidex : countP isExitEv mid = 0 := countP_eq_zero.mpr fun x hx => (hmid x hx).2.1
  have hmiddel : countP deliveredExit mid = 0 := countP_deliveredExit_le hmidex
  have hrestcc : countP isCC rest = 0 := by
    rw [hrest, countP_append, countP_append, countP_cons,
      hreplyCounts isCC rfl, hmidcc, qc1, (isExitEv_parts hexit).1]
    rfl
  have hccA : isCC cc = true := by simp [isCC, hccdef]
  have hstA : isStart cc = false := by simp [isStart, hccdef]
  have hdelA : deliveredExit cc = false := by simp [deliveredExit, hccdef]
  have hccT : countP isCC (tr ++ cc :: rest) = 1 := by
    rw [countP_append, countP_cons, f5, hrestcc, hccA]
    rfl
  have hrestStart : countP isStart rest ≤ 1 := by
    rw [hrest, countP_append, countP_append, countP_cons,
      hreplyCounts isStart rfl, qc3, (isExitEv_parts hexit).2.1]
    simpa using hmidstart
  have hstT : countP isStart (tr ++ cc :: rest) ≤ 1 := by
    rw [countP_append, countP_cons, f3, hstA]
    simpa using hrestStart
  have hdT : countP deliveredExit (tr ++ cc :: rest) = 1 := by
    rw [countP_append, countP_cons, countP_deliveredExit_le f2, hdelA]
    rw [hrest, countP_append, countP_append, countP_cons,
      hreplyCounts deliveredExit rfl, hmiddel, qc4, hdel]
    rfl
  have hattT : attempted (tr ++ cc :: rest) = true := by
    rw [attempted_append, f1]
    simp [attempted, isAttempt, hccA]
  refine ⟨by rw [h4, h1]; rfl, by rw [hccT, h2]; rfl, by rw [hccT]; exact hstT,
    Or.inr (Or.inr ⟨h1, hdT, hattT⟩), ?_, ?_⟩
  · refine ord_append inv.hord ?_
    intro pre2 e post2 hB2 he
    obtain ⟨a, ha, hatt⟩ :=
      ord_block_mid_attempt (q := []) (by simp) (c := cc)
        (by simp [isAttempt, hccA]) (by simp [isExitEv, hccdef]) rest
        pre2 e post2 (by simpa using hB2) he
    exact ⟨a, List.mem_append_right _ ha, hatt⟩
  · refine c7_append_cc f5 (clean_of_phase1 f2 f3) ?_ ?_ rfl
    · intro x hx
      exact notMem_of_countP_zero hrestcc hx
    · intro hwr
      rw [hrest, hwr]
      cases mid <;> rfl

theorem reply_counts (wr : Bool) (p : Event → Bool) (hp : p (Event.reply true) = false) :
    countP p (if wr then [Event.reply true] else []) = 0 := by
  cases wr <;> simp [countP, List.filter, hp]

theorem reply_quiet (wr : Bool) :
    ∀ x ∈ (if wr then [Event.reply true] else []), quietEv x = true := by
  cases wr <;> intro x hx <;> simp at hx
  rw [hx]
  rfl

theorem exitCount_of_inv {orc : Oracle} {st : SessState} {tr : List Event}
    (inv : SessInv orc st tr) (hco : st.complete = false) : countP isExitEv tr = 0 := by
  rcases inv.hph with ⟨_, _, _, p4, _⟩ | ⟨_, _, _, p4, _⟩ | ⟨p1, _, _⟩
  · exact p4
  · exact p4
  · rw [hco] at p1
    exact absurd p1 (by simp)

/-- Appending a terminal block (optional quiet prefix, an attempt event,
the delivered exit notification, quiet closes) while tearing down moves
the run to phase three. -/
theorem inv_terminal_block {orc : Oracle} {st : SessState} {tr : List Event}
    (inv : SessInv orc st tr) (hco : st.complete = false)
    {st' : SessState} {q : List Event} {c exitE : Event} {closes : List Event}
    (hq : ∀ x ∈ q, quietEv x = true)
    (hcAtt : isAttempt c = true) (hcQuiet : isExitEv c = false ∧ isCC c = false
      ∧ isStart c = false ∧ deliveredExit c = false)
    (hexit : isExitEv exitE = true) (hdel : deliveredExit exitE = true)
    (hcloses : ∀ x ∈ closes, quietEv x = true)
    (h1 : st'.complete = true) (h2 : st'.commandSet = st.commandSet)
    (h4 : st'.channelOpen = false) :
    SessInv orc st' (tr ++ (q ++ c :: exitE :: closes)) := by
  obtain ⟨hq1, hq2, hq3, hq4, _⟩ := quiet_counts hq
  obtain ⟨hc1, hc2, hc3, hc4, _⟩ := quiet_counts hcloses
  have hexTr := exitCount_of_inv inv hco
  have hdelTr := countP_deliveredExit_le hexTr
  obtain ⟨he1, he2, he3⟩ := isExitEv_parts hexit
  refine ⟨by rw [h4, h1]; rfl, ?_, ?_, ?_, ?_, ?_⟩
  · rw [countP_append, countP_append, countP_cons, countP_cons,
      hq1, hcQuiet.2.1, he1, hc1, h2]
    simpa using inv.hcc
  · rw [countP_append, countP_append, countP_cons, countP_cons,
      hq3, hcQuiet.2.2.1, he2, hc3,
      countP_append, countP_append, countP_cons, countP_cons,
      hq1, hcQuiet.2.1, he1, hc1]
    simpa using inv.hsc
  · refine Or.inr (Or.inr ⟨h1, ?_, ?_⟩)
    · rw [countP_append, countP_append, countP_cons, countP_cons,
        hdelTr, hq4, hcQuiet.2.2.2, hdel, hc4]
      rfl
    · rw [attempted_append, attempted_append]
      have : attempted (c :: exitE :: closes) = true := by
        simp [attempted, isAttempt] at hcAtt ⊢
        tauto
      rw [this]
      simp
  · refine ord_append inv.hord ?_
    intro pre2 e post2 hB2 he
    exact ord_block_mid_attempt (fun x hx => (quiet_parts (hq x hx)).2.1) hcAtt
      hcQuiet.1 (exitE :: closes) pre2 e post2 hB2 he |>.imp
      fun a ⟨ha, hatt⟩ => ⟨List.mem_append_right _ ha, hatt⟩
  · refine c7_append_nocc inv.hc7 ?_
    intro x hx
    rcases List.mem_append.mp hx with hx1 | hx2
    · exact (quiet_parts (hq x hx1)).1
    · rcases List.mem_cons.mp hx2 with rfl | hx3
      · exact hcQuiet.2.1
      · rcases List.mem_cons.mp hx3 with rfl | hx4
        · exact he1
        · exact (quiet_parts (hcloses x hx4)).1

/-- `executeSCP` preserves the invariant, landing in phase three. -/
theorem inv_scp {orc : Oracle} {st : SessState} {tr : List Event} (inv : SessInv orc st tr)
    (hco : st.complete = false) (wr : Bool) (cmd : List Nat) :
    SessInv orc (executeSCP st wr cmd orc).1 (tr ++ (executeSCP st wr cmd orc).2) := by
  have hopen : st.channelOpen = true := by rw [inv.hch, hco]; rfl
  have hscp : executeSCP st wr cmd orc =
      ({st with complete := true, channelOpen := false, ptyMaster := false},
        (if wr then [Event.reply true] else []) ++ Event.scpCopy cmd ::
          Event.exitStatus (if orc.scpOk then 0 else 1) true ::
          (Event.chanClose :: (if st.ptyMaster then [Event.ptyClose] else []))) := by
    rw [executeSCP, destroy_not_complete hco, hopen]
  rw [hscp]
  refine inv_terminal_block inv hco (reply_quiet wr) (by rfl) ⟨rfl, rfl, rfl, rfl⟩
    rfl rfl ?_ rfl rfl rfl
  intro x hx
  rcases List.mem_cons.mp hx with rfl | hx2
  · rfl
  · cases hpm : st.ptyMaster
    · rw [hpm] at hx2
      simp at hx2
    · rw [hpm] at hx2
      simp at hx2
      rw [hx2]
      rfl

theorem singleton_split {x e : Event} {pre post : List Event}
    (h : [x] = pre ++ e :: post) : pre = [] ∧ e = x ∧ post = [] := by
  cases pre with
  | nil =>
    injection h with h1 h2
    exact ⟨rfl, h1.symm, h2.symm⟩
  | cons y l =>
    exfalso
    injection h with h1 h2
    exact absurd h2.symm (by simp)

/-- The exit waiter firing preserves the invariant: from phase two it
delivers the single exit notification and tears down; after an SCP
teardown its send fails on the closed channel and changes nothing. -/
theorem inv_fireWaiter {orc : Oracle} {st : SessState} {tr : List Event}
    (inv : SessInv orc st tr) (hwp : st.waiterPending = true) :
    SessInv orc (fireWaiter st orc).1 (tr ++ (fireWaiter st orc).2) := by
  obtain ⟨exitE, hsem, hex, hdel⟩ := sendExitMessage_shape orc.waitErr st.channelOpen
  obtain ⟨he1, he2, he3⟩ := isExitEv_parts hex
  by_cases hco : st.complete
  · -- already complete: the destroy is a no-op and the exit send fails
    have hchf : st.channelOpen = false := by rw [inv.hch, hco]; rfl
    have hB : fireWaiter st orc = ({st with waiterPending := false}, [exitE]) := by
      rw [fireWaiter, hsem]
      simp [destroy, hco]
    have hph3 : countP deliveredExit tr = 1 ∧ attempted tr = true := by
      rcases inv.hph with ⟨_, p2, _, _, _⟩ | ⟨p1, _, _, _, _⟩ | ⟨_, p2, p3⟩
      · rw [hco] at p2
        exact absurd p2 (by simp)
      · rw [hco] at p1
        exact absurd p1 (by simp)
      · exact ⟨p2, p3⟩
    rw [hB]
    refine ⟨inv.hch, ?_, ?_, ?_, ?_, ?_⟩
    · rw [countP_append, countP_cons, he1]
      simpa using inv.hcc
    · rw [countP_append, countP_cons, he2, countP_append, countP_cons, he1]
      simpa using inv.hsc
    · refine Or.inr (Or.inr ⟨hco, ?_, ?_⟩)
      · rw [countP_append, countP_cons, hph3.1]
        rw [hchf] at hdel
        rw [hdel]
        rfl
      · rw [attempted_append, hph3.2]
        rfl
    · refine ord_append inv.hord ?_
      intro pre2 e post2 hB2 he
      obtain ⟨hp, _, _⟩ := singleton_split hB2
      subst hp
      obtain ⟨a, ha, hatt⟩ := List.any_eq_true.mp hph3.2
      exact ⟨a, by simpa using ha, hatt⟩
    · refine c7_append_nocc inv.hc7 ?_
      intro x hx
      simp at hx
      rw [hx]
      exact he1
  · -- phase two: deliver the exit and tear down
    have hco2 : st.complete = false := by simpa using hco
    have hopen : st.channelOpen = true := by rw [inv.hch, hco2]; rfl
    have hph2 : st.commandSet = true ∧ countP isExitEv tr = 0 ∧ attempted tr = true := by
      rcases inv.hph with ⟨_, _, p3, _, _⟩ | ⟨_, _, p3, p4, p5⟩ | ⟨p1, _, _⟩
      · rw [hwp] at p3
        exact absurd p3 (by simp)
      · exact ⟨p3, p4, p5⟩
      · rw [hco2] at p1
        exact absurd p1 (by simp)
    have hB : fireWaiter st orc =
        ({st with waiterPending := false, complete := true, channelOpen := false, ptyMaster := false},
          exitE :: (Event.chanClose :: (if st.ptyMaster then [Event.ptyClose] else []))) := by
      rw [fireWaiter, hsem]
      simp [destroy, hco2]
    rw [hB]
    have hclq : ∀ x ∈ Event.chanClose :: (if st.ptyMaster then [Event.ptyClose] else []),
        quietEv x = true := by
      intro x hx
      rcases List.mem_cons.mp hx with rfl | hx2
      · rfl
      · cases hpm : st.ptyMaster
        · rw [hpm] at hx2
          simp at hx2
        · rw [hpm] at hx2
          simp at hx2
          rw [hx2]
          rfl
    obtain ⟨hc1, hc2, hc3, hc4, _⟩ := quiet_counts hclq
    refine ⟨by rfl, ?_, ?_, ?_, ?_, ?_⟩
    · rw [countP_append, countP_cons, he1, hc1]
      simpa [hph2.1] using inv.hcc
    · rw [countP_append, countP_cons, he2, hc3, countP_append, countP_cons, he1, hc1]
      simpa using inv.hsc
    · refine Or.inr (Or.inr ⟨rfl, ?_, ?_⟩)
      · rw [countP_append, countP_cons, countP_deliveredExit_le hph2.2.1, hc4]
        rw [hopen] at hdel
        rw [hdel]
        rfl
      · rw [attempted_append, hph2.2.2]
        rfl
    · refine ord_append inv.hord ?_
      intro pre2 e post2 hB2 he
      obtain ⟨a, ha, hatt⟩ := List.any_eq_true.mp hph2.2.2
      exact ⟨a, List.mem_append_left _ ha, hatt⟩
    · refine c7_append_nocc inv.hc7 ?_
      intro x hx
      rcases List.mem_cons.mp hx with rfl | hx2
      · exact he1
      · exact (quiet_parts (hclq x hx2)).1

theorem replyb_quiet (b wr : Bool) :
    ∀ x ∈ (if wr then [Event.reply b] else []), quietEv x = true := by
  cases wr <;> intro x hx <;> simp at hx
  rw [hx]
  cases b <;> rfl

theorem closes_quiet (b : Bool) :
    ∀ x ∈ Event.chanClose :: (if b then [Event.ptyClose] else []), quietEv x = true := by
  intro x hx
  rcases List.mem_cons.mp hx with rfl | hx2
  · rfl
  · cases b
    · simp at hx2
    · simp at hx2
      rw [hx2]
      rfl

theorem inv_handleEnv {orc : Oracle} {st : SessState} {tr : List Event}
    (inv : SessInv orc st tr) (wr : Bool) (p : List Nat) :
    SessInv orc (handleEnvironmentRequest st wr p).1
      (tr ++ (handleEnvironmentRequest st wr p).2) := by
  rcases hd : decodeEnv p with _ | ⟨n, v⟩
  · rw [handleEnvironmentRequest, hd]
    exact inv_quiet inv (replyb_quiet false wr) rfl rfl rfl rfl
  · rw [handleEnvironmentRequest, hd]
    exact inv_quiet inv (replyb_quiet true wr) rfl rfl rfl rfl

theorem inv_handleSignal {orc : Oracle} {st : SessState} {tr : List Event}
    (inv : SessInv orc st tr) (wr : Bool) (p : List Nat) :
    SessInv orc (handleSignalRequest st wr p).1 (tr ++ (handleSignalRequest st wr p).2) := by
  rcases hd : decodeSignal p with _ | name
  · rw [handleSignalRequest, hd]
    exact inv_quiet inv (replyb_quiet false wr) rfl rfl rfl rfl
  · rw [handleSignalRequest, hd]
    refine inv_quiet inv ?_ rfl rfl rfl rfl
    intro x hx
    rcases List.mem_append.mp hx with hx1 | hx2
    · by_cases hcs : st.commandSet
      · rw [hcs] at hx1
        simp at hx1
        rw [hx1]
        rfl
      · rw [if_neg hcs] at hx1
        simp at hx1
    · exact replyb_quiet true wr x hx2

theorem inv_handlePty {orc : Oracle} {st : SessState} {tr : List Event}
    (inv : SessInv orc st tr) (wr : Bool) (p : List Nat) :
    SessInv orc (handlePtyRequest st wr p).1 (tr ++ (handlePtyRequest st wr p).2) := by
  rcases hd : decodePty p with _ | msg
  · rw [handlePtyRequest, hd]
    exact inv_quiet inv (replyb_quiet false wr) rfl rfl rfl rfl
  · rw [handlePtyRequest, hd]
    exact inv_quiet inv (replyb_quiet true wr) rfl rfl rfl rfl

theorem wcState_fields (st : SessState) (c r : Nat) :
    (wcState st c r).complete = st.complete ∧ (wcState st c r).commandSet = st.commandSet
      ∧ (wcState st c r).waiterPending = st.waiterPending
      ∧ (wcState st c r).channelOpen = st.channelOpen
      ∧ (wcState st c r).ptyMaster = st.ptyMaster
      ∧ (wcState st c r).env = st.env ∧ (wcState st c r).shellPath = st.shellPath := by
  unfold wcState
  split <;> exact ⟨rfl, rfl, rfl, rfl, rfl, rfl, rfl⟩

theorem inv_handleWinch {orc : Oracle} {st : SessState} {tr : List Event}
    (inv : SessInv orc st tr) (wr : Bool) (p : List Nat) :
    SessInv orc (handleWindowChangeRequest st wr p).1
      (tr ++ (handleWindowChangeRequest st wr p).2) := by
  rcases hd : decodeWinch p with _ | ⟨c, r, w, h⟩
  · rw [handleWindowChangeRequest, hd]
    exact inv_quiet inv (replyb_quiet false wr) rfl rfl rfl rfl
  · rw [handleWindowChangeRequest, hd]
    obtain ⟨w1, w2, w3, w4, _⟩ := wcState_fields st c r
    refine inv_quiet inv ?_ w1 w2 w3 w4
    intro x hx
    rcases List.mem_append.mp hx with hx1 | hx2
    · split at hx1
      · simp at hx1
        rw [hx1]
        rfl
      · simp at hx1
    · exact replyb_quiet true wr x hx2

theorem inv_executeShell {orc : Oracle} {st : SessState} {tr : List Event}
    (inv : SessInv orc st tr) (hco : st.complete = false) (wr : Bool)
    (args : List (List Nat)) :
    SessInv orc (executeShell st wr args orc).1 (tr ++ (executeShell st wr args orc).2) := by
  by_cases hcs : st.commandSet
  · have he : executeShell st wr args orc = (st, if wr then [Event.reply false] else []) := by
      simp [executeShell, createCommand, hcs]
    rw [he]
    exact inv_quiet inv (replyb_quiet false wr) rfl rfl rfl rfl
  · have hcs2 : st.commandSet = false := by simpa using hcs
    have hopen : st.channelOpen = true := by rw [inv.hch, hco]; rfl
    by_cases hpty : st.allocPty
    · by_cases hptyok : orc.ptyOk
      · by_cases hstart : orc.startOk
        · have he : executeShell st wr args orc =
              ({st with commandSet := true, ptyMaster := true, waiterPending := true},
                Event.commandCreated wr (st.shellPath :: args) st.env
                    (environment st.env orc.osHome orc.osUser) ::
                  ((if wr then [Event.reply true] else []) ++ [Event.startAttempt true])) := by
            simp [executeShell, createCommand, hcs2, hpty, hptyok, hstart]
          rw [he]
          exact inv_commit_success inv hco hcs2 hco rfl rfl rfl
        · have he : executeShell st wr args orc =
              ({st with commandSet := true, complete := true, channelOpen := false, ptyMaster := false},
                Event.commandCreated wr (st.shellPath :: args) st.env
                    (environment st.env orc.osHome orc.osUser) ::
                  ((if wr then [Event.reply true] else []) ++ [Event.startAttempt false] ++
                    Event.exitStatus 255 true ::
                      (Event.chanClose :: [Event.ptyClose]))) := by
            simp [executeShell, createCommand, hcs2, hpty, hptyok, hstart, sendExitMessage,
              destroy, hco, hopen]
          rw [he]
          exact inv_commit_fail inv hco hcs2 (by decide) (by decide) rfl rfl (by decide)
            rfl rfl rfl
      · have he : executeShell st wr args orc =
            ({st with commandSet := true, complete := true, channelOpen := false, ptyMaster := false},
              Event.commandCreated wr (st.shellPath :: args) st.env
                  (environment st.env orc.osHome orc.osUser) ::
                ((if wr then [Event.reply true] else []) ++ ([] : List Event) ++
                  Event.exitStatus 255 true ::
                    (Event.chanClose :: (if st.ptyMaster then [Event.ptyClose] else [])))) := by
          simp [executeShell, createCommand, hcs2, hpty, hptyok, sendExitMessage,
            destroy, hco, hopen]
        rw [he]
        exact inv_commit_fail inv hco hcs2 (by simp) (by simp [countP]) rfl rfl
          (closes_quiet st.ptyMaster) rfl rfl rfl
    · by_cases hstart : orc.startOk
      · have he : executeShell st wr args orc =
            ({st with commandSet := true, waiterPending := true},
              Event.commandCreated wr (st.shellPath :: args) st.env
                  (environment st.env orc.osHome orc.osUser) ::
                ((if wr then [Event.reply true] else []) ++ [Event.startAttempt true])) := by
          simp [executeShell, createCommand, hcs2, hpty, hstart]
        rw [he]
        exact inv_commit_success inv hco hcs2 hco rfl rfl rfl
      · have he : executeShell st wr args orc =
            ({st with commandSet := true, complete := true, channelOpen := false, ptyMaster := false},
              Event.commandCreated wr (st.shellPath :: args) st.env
                  (environment st.env orc.osHome orc.osUser) ::
                ((if wr then [Event.reply true] else []) ++ [Event.startAttempt false] ++
                  Event.exitStatus 255 true ::
                    (Event.chanClose :: (if st.ptyMaster then [Event.ptyClose] else [])))) := by
          simp [executeShell, createCommand, hcs2, hpty, hstart, sendExitMessage,
            destroy, hco, hopen]
        rw [he]
        exact inv_commit_fail inv hco hcs2 (by decide) (by decide) rfl rfl
          (closes_quiet st.ptyMaster) rfl rfl rfl

theorem inv_handleExec {orc : Oracle} {st : SessState} {tr : List Event}
    (inv : SessInv orc st tr) (hco : st.complete = false) (wr : Bool) (p : List Nat) :
    SessInv orc (handleExecRequest st wr p orc).1 (tr ++ (handleExecRequest st wr p orc).2) := by
  rcases hd : decodeExec p with _ | cmd
  · rw [handleExecRequest, hd]
    exact inv_quiet inv (replyb_quiet false wr) rfl rfl rfl rfl
  · simp only [handleExecRequest, hd]
    by_cases hm : scpMatch cmd
    · rw [if_pos hm]
      exact inv_scp inv hco wr cmd
    · rw [if_neg hm]
      exact inv_executeShell inv hco wr [bDashC, cmd]

/-- The dispatcher step preserves the invariant from a live session. -/
theorem inv_step {orc : Oracle} {st : SessState} {tr : List Event}
    (inv : SessInv orc st tr) (hco : st.complete = false) (r : Req) :
    SessInv orc (step st r orc).1 (tr ++ (step st r orc).2) := by
  rw [step]
  by_cases h1 : r.typ == "env"
  · rw [if_pos h1]
    exact inv_handleEnv inv r.wantReply r.payload
  rw [if_neg h1]
  by_cases h2 : r.typ == "signal"
  · rw [if_pos h2]
    exact inv_handleSignal inv r.wantReply r.payload
  rw [if_neg h2]
  by_cases h3 : r.typ == "pty-req"
  · rw [if_pos h3]
    exact inv_handlePty inv r.wantReply r.payload
  rw [if_neg h3]
  by_cases h4 : r.typ == "window-change"
  · rw [if_pos h4]
    exact inv_handleWinch inv r.wantReply r.payload
  rw [if_neg h4]
  by_cases h5 : r.typ == "exec"
  · rw [if_pos h5]
    exact inv_handleExec inv hco r.wantReply r.payload
  rw [if_neg h5]
  by_cases h6 : r.typ == "shell"
  · rw [if_pos h6]
    exact inv_executeShell inv hco r.wantReply []
  rw [if_neg h6]
  exact inv_quiet inv (replyb_quiet false r.wantReply) rfl rfl rfl rfl

/-- The dispatch loop preserves the invariant. -/
theorem inv_dispatchLoop {orc : Oracle} :
    ∀ (reqs : List Req) (st : SessState) (tr : List Event) (fire : Nat),
      SessInv orc st tr →
      SessInv orc (dispatchLoop st reqs orc fire).1 (tr ++ (dispatchLoop st reqs orc fire).2)
  | [], st, tr, fire, inv => by
    simpa [dispatchLoop] using inv
  | r :: rs, st, tr, fire, inv => by
    rw [dispatchLoop]
    by_cases hco : st.complete
    · rw [if_pos hco]
      simpa using inv
    · rw [if_neg hco]
      by_cases hfw : (fire == 0 && st.waiterPending) = true
      · rw [if_pos hfw]
        exact inv_fireWaiter inv (Bool.and_eq_true_iff.mp hfw).2
      · rw [if_neg hfw]
        have hco2 : st.complete = false := by simpa using hco
        have ih := inv_dispatchLoop rs (step st r orc).1 (tr ++ (step st r orc).2) (fire - 1)
          (inv_step inv hco2 r)
        simpa [List.append_assoc] using ih

theorem inv_endWaiter {orc : Oracle} {st : SessState} {tr : List Event}
    (inv : SessInv orc st tr) :
    SessInv orc (endWaiter st orc).1 (tr ++ (endWaiter st orc).2) := by
  by_cases hwp : st.waiterPending
  · rw [endWaiter, if_pos hwp]
    exact inv_fireWaiter inv hwp
  · rw [endWaiter, if_neg hwp]
    simpa using inv

theorem endWaiter_not_pending (st : SessState) (orc : Oracle) :
    (endWaiter st orc).1.waiterPending = false := by
  by_cases hwp : st.waiterPending
  · rw [endWaiter, if_pos hwp, fireWaiter]
    by_cases hc : st.complete
    · simp [destroy, hc]
    · simp [destroy, hc]
  · rw [endWaiter, if_neg hwp]
    simpa using hwp

/-- The final teardown after the waiter has resolved yields a good
trace. -/
theorem final_good {orc : Oracle} {st : SessState} {tr : List Event}
    (inv : SessInv orc st tr) (hwp : st.waiterPending = false) :
    goodTrace orc (tr ++ (destroy st).2) := by
  obtain ⟨q1, q2, q3, q4, q5⟩ := quiet_counts (destroy_closes_quiet st)
  refine ⟨?_, ord_append_noexit inv.hord
      (fun x hx => (quiet_parts (destroy_closes_quiet st x hx)).2.1),
    c7_append_nocc inv.hc7 (fun x hx => (quiet_parts (destroy_closes_quiet st x hx)).1),
    ?_, ?_⟩
  · rw [countP_append, q4, attempted_append, q5]
    rcases inv.hph with ⟨p1, _, _, p4, _⟩ | ⟨_, p2, _, _, _⟩ | ⟨_, p2, p3⟩
    · rw [countP_deliveredExit_le p4, p1]
      rfl
    · rw [hwp] at p2
      exact absurd p2 (by simp)
    · rw [p2, p3]
      rfl
  · rw [countP_append, q1, inv.hcc]
    split <;> simp
  · rw [countP_append, countP_append, q1, q3]
    simpa using inv.hsc

/-- The master theorem: every complete session run, over any request
list, oracle and waiter interleaving, produces a good trace. -/
theorem runSession_good (defaultEnv : EnvMap) (sp : List Nat) (reqs : List Req)
    (orc : Oracle) (fire : Nat) :
    goodTrace orc (runSession (newSession defaultEnv sp) reqs orc fire).2 := by
  have inv0 : SessInv orc (newSession defaultEnv sp) [] :=
    ⟨rfl, rfl, le_refl _, Or.inl ⟨rfl, rfl, rfl, rfl, rfl⟩, ord_nil, c7_nil orc⟩
  have inv1 := inv_dispatchLoop reqs (newSession defaultEnv sp) [] fire inv0
  rw [List.nil_append] at inv1
  have inv2 := inv_endWaiter inv1
  have hnp := endWaiter_not_pending (dispatchLoop (newSession defaultEnv sp) reqs orc fire).1 orc
  have hfin := final_good inv2 hnp
  rw [runSession]
  simpa [List.append_assoc] using hfin

theorem destroy_complete {st : SessState} (h : st.complete = true) :
    destroy st = (st, []) := by
  simp [destroy, h]

theorem destroyN_complete {st : SessState} (h : st.complete = true) :
    ∀ n, destroyN n st = (st, []) := by
  intro n
  induction n with
  | zero => rfl
  | succ k ih =>
    rw [destroyN, destroy_complete h, ih]
    rfl

/-! ## Claim theorems -/

/-- C3.  When the exit of a shell/exec child is reported by
`sendExitMessage`: a normally terminated child yields an exit-status
request with the child's exit code; a signaled child yields an
exit-signal request with the SSH name of the signal and the core-dumped
flag (and empty error and language strings); an `ExitError` whose wait
status cannot be decoded, or any other error — including a failed
launch — yields exit-status 255. -/
theorem claim_exit_message_encoding :
    ∀ (ch : Bool) (w : Nat),
      (wExited w = true →
        sendExitMessage (some (GoError.exitError (SysValue.waitStatus w))) ch
          = [Event.exitStatus ((w / 256) % 256) ch])
      ∧ (wSignaled w = true →
        sendExitMessage (some (GoError.exitError (SysValue.waitStatus w))) ch
          = [Event.exitSignal (sshSignalName (w % 128)) (wCoreDump w) [] [] ch])
      ∧ sendExitMessage (some (GoError.exitError SysValue.notWaitStatus)) ch
          = [Event.exitStatus 255 ch]
      ∧ sendExitMessage (some GoError.plain) ch = [Event.exitStatus 255 ch]
      ∧ (∀ (st : SessState) (wr : Bool) (args : List (List Nat)) (orc : Oracle),
          st.commandSet = false → st.allocPty = false → orc.startOk = false →
          Event.exitStatus 255 st.channelOpen ∈ (executeShell st wr args orc).2) := by
  intro ch w
  refine ⟨?_, ?_, rfl, rfl, ?_⟩
  · intro h
    have hs : wSignaled w = false := by
      simp [wExited] at h
      simp [wSignaled, h]
    simp [sendExitMessage, hs, waitStatusExitCode, h]
  · intro h
    simp [sendExitMessage, h]
  · intro st wr args orc h1 h2 h3
    cases hwr : wr <;>
      simp [executeShell, createCommand, h1, h2, h3, sendExitMessage]

/-- Witness for C3 at a concrete signaled wait status: 9 is SIGKILL
without a core dump, so the exit message is exit-signal "KILL". -/
theorem claim_exit_message_encoding_witness :
    wSignaled 9 = true ∧
      sendExitMessage (some (GoError.exitError (SysValue.waitStatus 9))) true
        = [Event.exitSignal (sshSignalName (9 % 128)) (wCoreDump 9) [] [] true] :=
  ⟨by decide, ((claim_exit_message_encoding true 9).2.1 (by decide))⟩

/-- C6.  Teardown is idempotent: from a live session, the first
`destroy` sets the completion flag, clears the pty master and closes the
channel and (when held) the pty master; invoking it N ≥ 1 times in
total closes each exactly once, and every invocation on a completed
session returns without effect. -/
theorem claim_destroy_idempotent :
    ∀ (st : SessState) (n : Nat), st.complete = false → 1 ≤ n →
      (destroy st).1.complete = true
      ∧ (destroy st).1.ptyMaster = false
      ∧ countP isChanCloseEv (destroyN n st).2 = 1
      ∧ countP isPtyCloseEv (destroyN n st).2 = (if st.ptyMaster then 1 else 0)
      ∧ (∀ st2 : SessState, st2.complete = true → destroy st2 = (st2, [])) := by
  intro st n hco hn
  have hd := destroy_not_complete hco
  have hc1 : (destroy st).1.complete = true := by rw [hd]
  rcases n with _ | k
  · exact absurd hn (by simp)
  · have hrest := destroyN_complete hc1 k
    have htr : (destroyN (k + 1) st).2 = (destroy st).2 := by
      rw [destroyN, hrest]
      simp
    refine ⟨hc1, by rw [hd], ?_, ?_, fun st2 h => destroy_complete h⟩
    · rw [htr, hd]
      cases hpm : st.ptyMaster <;> simp [hpm, countP, List.filter, isChanCloseEv]
    · rw [htr, hd]
      cases hpm : st.ptyMaster <;> simp [hpm, countP, List.filter, isPtyCloseEv]

/-- Witness for C6: destroying a live session holding a pty master three
times closes the channel once and the pty master once. -/
theorem claim_destroy_idempotent_witness :
    countP isChanCloseEv
        (destroyN 3 {newSession [] [47, 98] with ptyMaster := true}).2 = 1
      ∧ countP isPtyCloseEv
        (destroyN 3 {newSession [] [47, 98] with ptyMaster := true}).2
        = (if ({newSession [] [47, 98] with ptyMaster := true} : SessState).ptyMaster
            then 1 else 0) :=
  ⟨(claim_destroy_idempotent {newSession [] [47, 98] with ptyMaster := true} 3
      rfl (by decide)).2.2.1,
    (claim_destroy_idempotent {newSession [] [47, 98] with ptyMaster := true} 3
      rfl (by decide)).2.2.2.1⟩

/-- C10.  `newSession` installs the handler's `defaultEnv` Go map itself
(a reference, not a copy), so any two sessions of one handler — created
before or after, since session creation does not touch the map — share
one env map: an env request handled on one session mutates the map the
other session reads through its own reference. -/
theorem claim_shared_default_env :
    ∀ (h : GoHandler) (heap : EnvHeap) (k v home user : List Nat),
      (goNewSession h).envRef = h.defaultEnv
      ∧ goHandleEnvRequest heap (goNewSession h) k v (goNewSession h).envRef
          = envSet (heap (goNewSession h).envRef) k v
      ∧ environment (goHandleEnvRequest heap (goNewSession h) k v (goNewSession h).envRef)
          home user
          = environment (envSet (heap h.defaultEnv) k v) home user := by
  intro h heap k v home user
  exact ⟨rfl, by simp [goHandleEnvRequest, goNewSession],
    by simp [goHandleEnvRequest, goNewSession]⟩

/-- C1.  Whenever a child environment vector is constructed for an
exec/shell launch, it is exactly: the fixed PATH and LANG entries, the
session map entries whose key is neither HOME nor USER, and HOME and
USER entries built from the daemon's own process environment.  In
particular the daemon's HOME and USER entries are present, and every
entry produced from the session env map comes from a key that is
neither HOME nor USER, so HOME or USER bindings the peer placed in the
map via env requests are excluded. -/
theorem claim_env_home_user_from_daemon :
    ∀ (defaultEnv : EnvMap) (sp : List Nat) (reqs : List Req) (orc : Oracle) (fire : Nat)
      (wr : Bool) (argv : List (List Nat)) (m : EnvMap) (envv : List (List Nat)),
      Event.commandCreated wr argv m envv
          ∈ (runSession (newSession defaultEnv sp) reqs orc fire).2 →
      envv = pathEntry :: langEntry ::
          ((m.filter (fun p => !(p.1 == bHOME) && !(p.1 == bUSER))).map
              (fun p => p.1 ++ 61 :: p.2)
            ++ [bHOMEeq ++ orc.osHome, bUSEReq ++ orc.osUser])
        ∧ (bHOMEeq ++ orc.osHome) ∈ envv
        ∧ (bUSEReq ++ orc.osUser) ∈ envv
        ∧ ∀ e ∈ (m.filter (fun p => !(p.1 == bHOME) && !(p.1 == bUSER))).map
              (fun p => p.1 ++ 61 :: p.2),
            ∃ k v2, (k, v2) ∈ m ∧ e = k ++ 61 :: v2 ∧ k ≠ bHOME ∧ k ≠ bUSER := by
  intro defaultEnv sp reqs orc fire wr argv m envv hmem
  obtain ⟨pre, post, hsplit⟩ := List.append_of_mem hmem
  have hc7 := (runSession_good defaultEnv sp reqs orc fire).2.2.1 pre wr argv m envv post hsplit
  have henv2 : envv = pathEntry :: langEntry ::
      ((m.filter (fun p => !(p.1 == bHOME) && !(p.1 == bUSER))).map
          (fun p => p.1 ++ 61 :: p.2)
        ++ [bHOMEeq ++ orc.osHome, bUSEReq ++ orc.osUser]) := hc7.2.2
  refine ⟨henv2, ?_, ?_, ?_⟩
  · rw [henv2]
    simp
  · rw [henv2]
    simp
  · intro e he
    obtain ⟨⟨k, v2⟩, hq, rfl⟩ := List.mem_map.mp he
    have hqf := List.mem_filter.mp hq
    have hpred := hqf.2
    simp at hpred
    exact ⟨k, v2, hqf.1, rfl, hpred.1, hpred.2⟩

/-- Witness for C1: a session whose peer set HOME to "x" launches a
shell whose environment vector drops that binding and carries the
daemon's HOME and USER. -/
theorem claim_env_home_user_from_daemon_witness :
    (bHOMEeq ++ [104]) ∈ (pathEntry :: langEntry ::
      [[72, 79, 77, 69, 61, 104], [85, 83, 69, 82, 61, 117]] : List (List Nat)) :=
  (claim_env_home_user_from_daemon [] [47, 98]
    [⟨"env", true, [0, 0, 0, 4, 72, 79, 77, 69, 0, 0, 0, 1, 120]⟩, ⟨"shell", true, []⟩]
    oracleA 3 true [[47, 98]] [([72, 79, 77, 69], [120])]
    (pathEntry :: langEntry :: [[72, 79, 77, 69, 61, 104], [85, 83, 69, 82, 61, 117]])
    (by decide)).2.1

/-- C5.  Every constructed child environment vector has
`PATH=/bin:/usr/bin` and `LANG=en_US.UTF8` as its first two entries, in
that order, regardless of the session env map, so an env request naming
PATH or LANG cannot displace them. -/
theorem claim_path_lang_fixed :
    ∀ (defaultEnv : EnvMap) (sp : List Nat) (reqs : List Req) (orc : Oracle) (fire : Nat)
      (wr : Bool) (argv : List (List Nat)) (m : EnvMap) (envv : List (List Nat)),
      Event.commandCreated wr argv m envv
          ∈ (runSession (newSession defaultEnv sp) reqs orc fire).2 →
      envv.take 2 = [pathEntry, langEntry] ∧ pathEntry ∈ envv ∧ langEntry ∈ envv := by
  intro defaultEnv sp reqs orc fire wr argv m envv hmem
  obtain ⟨pre, post, hsplit⟩ := List.append_of_mem hmem
  have hc7 := (runSession_good defaultEnv sp reqs orc fire).2.2.1 pre wr argv m envv post hsplit
  have henv2 : envv = pathEntry :: langEntry ::
      ((m.filter (fun p => !(p.1 == bHOME) && !(p.1 == bUSER))).map
          (fun p => p.1 ++ 61 :: p.2)
        ++ [bHOMEeq ++ orc.osHome, bUSEReq ++ orc.osUser]) := hc7.2.2
  rw [henv2]
  exact ⟨rfl, by simp, by simp⟩

/-- Witness for C5: a peer env request naming PATH leaves the fixed
PATH and LANG entries first in the vector. -/
theorem claim_path_lang_fixed_witness :
    (pathEntry :: langEntry ::
        [[80, 65, 84, 72, 61, 47], [72, 79, 77, 69, 61, 104], [85, 83, 69, 82, 61, 117]] :
      List (List Nat)).take 2 = [pathEntry, langEntry] :=
  (claim_path_lang_fixed [] [47, 98]
    [⟨"env", true, [0, 0, 0, 4, 80, 65, 84, 72, 0, 0, 0, 1, 47]⟩, ⟨"shell", true, []⟩]
    oracleA 3 true [[47, 98]] [([80, 65, 84, 72], [47])]
    (pathEntry :: langEntry ::
      [[80, 65, 84, 72, 61, 47], [72, 79, 77, 69, 61, 104], [85, 83, 69, 82, 61, 117]])
    (by decide)).1

/-- Counterexample for C2 as stated: a legal request sequence consisting
of a single well-formed env request produces no exit notification at
all, so "exactly one exit notification is sent for every legal request
sequence" fails on the code. -/
theorem claim_single_exit_counterexample :
    ¬ countP deliveredExit
        (runSession (newSession [] [47, 98])
          [⟨"env", true, [0, 0, 0, 1, 65, 0, 0, 0, 1, 66]⟩] oracleA 0).2 = 1 := by
  decide

/-- C2 amended.  Over every request sequence, oracle and waiter
interleaving: exactly one exit notification is delivered on the channel
when a launch attempt (a created command or an SCP invocation)
occurred, and none otherwise; and every exit notification sent is
preceded in the trace by a launch attempt. -/
theorem claim_single_exit_amended :
    ∀ (defaultEnv : EnvMap) (sp : List Nat) (reqs : List Req) (orc : Oracle) (fire : Nat),
      countP deliveredExit (runSession (newSession defaultEnv sp) reqs orc fire).2
          = (if attempted (runSession (newSession defaultEnv sp) reqs orc fire).2
              then 1 else 0)
      ∧ (∀ pre e post,
          (runSession (newSession defaultEnv sp) reqs orc fire).2 = pre ++ e :: post →
          isExitEv e = true → ∃ a, a ∈ pre ∧ isAttempt a = true) :=
  fun defaultEnv sp reqs orc fire =>
    ⟨(runSession_good defaultEnv sp reqs orc fire).1,
      (runSession_good defaultEnv sp reqs orc fire).2.1⟩

/-- Witness for C2 amended: in the run of a single shell request, the
exit-status notification is preceded by the command-creation attempt. -/
theorem claim_single_exit_amended_witness :
    ∃ a, a ∈ [Event.commandCreated true [[47, 98]] []
          (pathEntry :: langEntry :: [[72, 79, 77, 69, 61, 104], [85, 83, 69, 82, 61, 117]]),
        Event.reply true, Event.startAttempt true]
      ∧ isAttempt a = true :=
  (claim_single_exit_amended [] [47, 98] [⟨"shell", true, []⟩] oracleA 9).2
    [Event.commandCreated true [[47, 98]] []
        (pathEntry :: langEntry :: [[72, 79, 77, 69, 61, 104], [85, 83, 69, 82, 61, 117]]),
      Event.reply true, Event.startAttempt true]
    (Event.exitStatus 0 true) [Event.chanClose] (by decide) (by decide)

/-- C4.  A session creates at most one child command: every run has at
most one created command and at most one start; and once the command
handle is set, `createCommand` fails with "command already started" and
`executeShell` sends only a negative reply (when wanted) and changes
nothing. -/
theorem claim_at_most_one_child :
    (∀ (defaultEnv : EnvMap) (sp : List Nat) (reqs : List Req) (orc : Oracle) (fire : Nat),
      countP isCC (runSession (newSession defaultEnv sp) reqs orc fire).2 ≤ 1
      ∧ countP isStart (runSession (newSession defaultEnv sp) reqs orc fire).2 ≤ 1)
    ∧ (∀ (st : SessState) (args : List (List Nat)) (orc : Oracle),
        st.commandSet = true →
        createCommand st args orc = Except.error "command already started")
    ∧ (∀ (st : SessState) (wr : Bool) (args : List (List Nat)) (orc : Oracle),
        st.commandSet = true →
        executeShell st wr args orc = (st, if wr then [Event.reply false] else [])) := by
  refine ⟨?_, ?_, ?_⟩
  · intro defaultEnv sp reqs orc fire
    have hg := runSession_good defaultEnv sp reqs orc fire
    exact ⟨hg.2.2.2.1, le_trans hg.2.2.2.2 hg.2.2.2.1⟩
  · intro st args orc h
    simp [createCommand, h]
  · intro st wr args orc h
    simp [executeShell, createCommand, h]

/-- Witness for C4: a double exec run spawns one child, and a session
with a set command handle rejects a new command. -/
theorem claim_at_most_one_child_witness :
    countP isCC (runSession (newSession [] [47, 98])
        [⟨"exec", true, [0, 0, 0, 2, 108, 115]⟩, ⟨"exec", true, [0, 0, 0, 2, 108, 115]⟩]
        oracleA 9).2 ≤ 1
    ∧ createCommand {newSession [] [47, 98] with commandSet := true} [] oracleA
        = Except.error "command already started"
    ∧ executeShell {newSession [] [47, 98] with commandSet := true} true [] oracleA
        = ({newSession [] [47, 98] with commandSet := true},
            if true then [Event.reply false] else []) :=
  ⟨(claim_at_most_one_child.1 [] [47, 98]
      [⟨"exec", true, [0, 0, 0, 2, 108, 115]⟩, ⟨"exec", true, [0, 0, 0, 2, 108, 115]⟩]
      oracleA 9).1,
    claim_at_most_one_child.2.1 {newSession [] [47, 98] with commandSet := true} [] oracleA rfl,
    claim_at_most_one_child.2.2 {newSession [] [47, 98] with commandSet := true} true []
      oracleA rfl⟩

/-- C7.  On every successful commit of an exec or shell request with
want_reply set, the positive reply directly follows the command
creation in the trace, and no exit notification and no child start
precedes the commit, so the reply is sent before the child is started
and before any exit message for that child. -/
theorem claim_reply_before_start :
    ∀ (defaultEnv : EnvMap) (sp : List Nat) (reqs : List Req) (orc : Oracle) (fire : Nat)
      (pre : List Event) (wr : Bool) (argv : List (List Nat)) (m : EnvMap)
      (envv : List (List Nat)) (post : List Event),
      (runSession (newSession defaultEnv sp) reqs orc fire).2
          = pre ++ Event.commandCreated wr argv m envv :: post →
      wr = true →
      post.head? = some (Event.reply true)
      ∧ ∀ x ∈ pre, isExitEv x = false ∧ isStart x = false := by
  intro defaultEnv sp reqs orc fire pre wr argv m envv post hsplit hwr
  have h := (runSession_good defaultEnv sp reqs orc fire).2.2.1 pre wr argv m envv post hsplit
  exact ⟨h.2.1 hwr, h.1⟩

/-- Witness for C7: in the run of one shell request with want_reply the
positive reply is the event directly after the commit. -/
theorem claim_reply_before_start_witness :
    ([Event.reply true, Event.startAttempt true, Event.exitStatus 0 true,
        Event.chanClose] : List Event).head? = some (Event.reply true) :=
  (claim_reply_before_start [] [47, 98] [⟨"shell", true, []⟩] oracleA 9 []
    true [[47, 98]] []
    (pathEntry :: langEntry :: [[72, 79, 77, 69, 61, 104], [85, 83, 69, 82, 61, 117]])
    [Event.reply true, Event.startAttempt true, Event.exitStatus 0 true, Event.chanClose]
    (by decide) rfl).1

/-- When no command exists yet, the first event of `executeShell` is
always the command creation with argv `shellPath :: args`. -/
theorem executeShell_head {st : SessState} (hcs : st.commandSet = false) (wr : Bool)
    (args : List (List Nat)) (orc : Oracle) :
    ((executeShell st wr args orc).2).head? =
      some (Event.commandCreated wr (st.shellPath :: args) st.env
        (environment st.env orc.osHome orc.osUser)) := by
  by_cases hpty : st.allocPty
  · by_cases hptyok : orc.ptyOk
    · by_cases hstart : orc.startOk <;>
        simp [executeShell, createCommand, hcs, hpty, hptyok, hstart]
    · simp [executeShell, createCommand, hcs, hpty, hptyok]
  · by_cases hstart : orc.startOk <;>
      simp [executeShell, createCommand, hcs, hpty, hstart]

/-- C8.  A request of any handled type whose payload fails its SSH-wire
decode yields a negative reply exactly when want_reply is set, no
positive reply, and leaves the session state untouched.  (A `shell`
request has no payload to decode, so its decode never fails.) -/
theorem claim_malformed_payload_rejected :
    ∀ (st : SessState) (r : Req) (orc : Oracle),
      st.complete = false →
      (r.typ = "env" ∨ r.typ = "signal" ∨ r.typ = "pty-req" ∨ r.typ = "window-change"
        ∨ r.typ = "exec" ∨ r.typ = "shell") →
      decodeForType r.typ r.payload = false →
      step st r orc = (st, if r.wantReply then [Event.reply false] else []) := by
  intro st r orc hco hty hdec
  rcases hty with h | h | h | h | h | h
  · rcases hd : decodeEnv r.payload with _ | v
    · simp [step, h, handleEnvironmentRequest, hd]
    · rw [h] at hdec
      simp [decodeForType, hd] at hdec
  · rcases hd : decodeSignal r.payload with _ | v
    · simp [step, h, handleSignalRequest, hd]
    · rw [h] at hdec
      simp [decodeForType, hd] at hdec
  · rcases hd : decodePty r.payload with _ | v
    · simp [step, h, handlePtyRequest, hd]
    · rw [h] at hdec
      simp [decodeForType, hd] at hdec
  · rcases hd : decodeWinch r.payload with _ | v
    · simp [step, h, handleWindowChangeRequest, hd]
    · rw [h] at hdec
      simp [decodeForType, hd] at hdec
  · rcases hd : decodeExec r.payload with _ | v
    · simp [step, h, handleExecRequest, hd]
    · rw [h] at hdec
      simp [decodeForType, hd] at hdec
  · rw [h] at hdec
    simp [decodeForType] at hdec

/-- Witness for C8: an env request whose payload announces five bytes
but carries none is rejected with a negative reply and no state
change. -/
theorem claim_malformed_payload_rejected_witness :
    step (newSession [] [47, 98]) ⟨"env", true, [0, 0, 0, 5]⟩ oracleA
      = (newSession [] [47, 98],
          if (⟨"env", true, [0, 0, 0, 5]⟩ : Req).wantReply then [Event.reply false] else []) :=
  claim_malformed_payload_rejected (newSession [] [47, 98]) ⟨"env", true, [0, 0, 0, 5]⟩
    oracleA rfl (Or.inl rfl) (by decide)

/-- C9.  An exec request whose decoded command matches the scp regex
invokes the SCP copier instead of any shell launch, replies positively
when wanted, sends exactly one exit-status request — 0 on copier
success, 1 otherwise — and tears the session down; a non-matching
command commits to a shell launch whose argv is `[shell, "-c", cmd]`. -/
theorem claim_scp_dispatch :
    ∀ (st : SessState) (wr : Bool) (p : List Nat) (orc : Oracle) (cmd : List Nat),
      st.complete = false → st.channelOpen = true →
      decodeExec p = some cmd →
      (scpMatch cmd = true →
        handleExecRequest st wr p orc =
          ({st with complete := true, channelOpen := false, ptyMaster := false},
            (if wr then [Event.reply true] else []) ++
              Event.scpCopy cmd ::
                Event.exitStatus (if orc.scpOk then 0 else 1) true ::
                  (Event.chanClose :: (if st.ptyMaster then [Event.ptyClose] else []))))
      ∧ (scpMatch cmd = false → st.commandSet = false →
          ((handleExecRequest st wr p orc).2).head? =
            some (Event.commandCreated wr [st.shellPath, bDashC, cmd] st.env
              (environment st.env orc.osHome orc.osUser))) := by
  intro st wr p orc cmd hco hopen hd
  constructor
  · intro hm
    simp only [handleExecRequest, hd]
    rw [if_pos hm, executeSCP, destroy_not_complete hco, hopen]
  · intro hm hcs
    simp only [handleExecRequest, hd]
    rw [if_neg (by simp [hm])]
    exact executeShell_head hcs wr [bDashC, cmd] orc

/-- Witness for C9: the command "scp a" is routed to the copier, which
succeeds, and the session sends exit-status 0 and tears down. -/
theorem claim_scp_dispatch_witness :
    handleExecRequest (newSession [] [47, 98]) true [0, 0, 0, 5, 115, 99, 112, 32, 97]
        oracleA
      = ({newSession [] [47, 98] with complete := true, channelOpen := false, ptyMaster := false},
          (if true then [Event.reply true] else []) ++
            Event.scpCopy [115, 99, 112, 32, 97] ::
              Event.exitStatus (if oracleA.scpOk then 0 else 1) true ::
                (Event.chanClose ::
                  (if (newSession [] [47, 98]).ptyMaster then [Event.ptyClose] else []))) :=
  (claim_scp_dispatch (newSession [] [47, 98]) true [0, 0, 0, 5, 115, 99, 112, 32, 97]
    oracleA [115, 99, 112, 32, 97] rfl rfl (by decide)).1 (by decide)
